import Mathlib

/-!
Verification of the MetaLogic digital-logic simulation kernel.

The definitions below are a shallow embedding of the TypeScript sources:
the five-valued logic domain and wire resolver
(`src/renderer/simulation/types/state.ts`, `core/WireResolver.ts`),
the priority event queue (`core/EventQueue.ts`), the gate base class and the
gate variants exercised by the claims (`gates/Gate.ts`, `gates/BasicGates.ts`,
`gates/SequentialGates.ts`, `gates/MemoryGates.ts`), the simulation engine
(`core/SimulationEngine.ts`) and the worker message dispatcher
(`simulationWorker.ts`).  JavaScript `Map`s are modelled as insertion-ordered
association lists, JavaScript arrays as `List`s, and the untyped
`internalState: Record<string, unknown>` records as association lists of a
small value sum type.
-/

namespace MetaLogic

/-- The five-valued logic domain (enum `StateType` in `types/state.ts`). -/
inductive StateType where
  | ZERO
  | ONE
  | HI_Z
  | CONFLICT
  | UNKNOWN
deriving DecidableEq, Repr, Inhabited, Fintype

open StateType

/-- Function `logicalNot` of `gates/BasicGates.ts`: 5-state logical negation. -/
def logicalNot : StateType → StateType
  | ZERO => ONE
  | ONE => ZERO
  | HI_Z => UNKNOWN
  | CONFLICT => CONFLICT
  | UNKNOWN => UNKNOWN

/-- Final flag dispatch of `resolveWireState` (`core/WireResolver.ts`): the
checks performed after the scan loop over the sources. -/
def resolveFinish (hasZero hasOne hasUnknown : Bool) : StateType :=
  if hasZero && hasOne then CONFLICT
  else if hasOne then ONE
  else if hasZero then ZERO
  else if hasUnknown then UNKNOWN
  else HI_Z

/-- The `for (const state of sources)` scan loop of `resolveWireState`
(`core/WireResolver.ts`), carrying the `hasZero`/`hasOne`/`hasUnknown` flags
and returning `CONFLICT` early when a `CONFLICT` source is seen. -/
def resolveLoop : List StateType → Bool → Bool → Bool → StateType
  | [], hasZero, hasOne, hasUnknown => resolveFinish hasZero hasOne hasUnknown
  | s :: rest, hasZero, hasOne, hasUnknown =>
    match s with
    | CONFLICT => CONFLICT
    | ZERO => resolveLoop rest true hasOne hasUnknown
    | ONE => resolveLoop rest hasZero true hasUnknown
    | UNKNOWN => resolveLoop rest hasZero hasOne true
    | HI_Z => resolveLoop rest hasZero hasOne hasUnknown

/-- Function `resolveWireState` of `core/WireResolver.ts`: combines the states
of all wires driving one net. -/
def resolveWireState (sources : List StateType) : StateType :=
  if sources.length = 0 then HI_Z
  else resolveLoop sources false false false

/-- The scan loop computes the membership-flag summary of its input. -/
lemma resolveLoop_eq (l : List StateType) (hz ho hu : Bool) :
    resolveLoop l hz ho hu =
      if CONFLICT ∈ l then CONFLICT
      else resolveFinish (hz || decide (ZERO ∈ l)) (ho || decide (ONE ∈ l))
        (hu || decide (UNKNOWN ∈ l)) := by
  induction l generalizing hz ho hu with
  | nil => simp [resolveLoop]
  | cons a t ih =>
    cases a <;>
      simp [resolveLoop, ih, List.mem_cons, Bool.or_assoc, Bool.or_comm, Bool.or_left_comm]

/-- Priority characterization of `resolveWireState`, shared by the claims about
the wire resolver. -/
lemma resolveWireState_char (l : List StateType) :
    resolveWireState l =
      if CONFLICT ∈ l ∨ (ZERO ∈ l ∧ ONE ∈ l) then CONFLICT
      else if ONE ∈ l then ONE
      else if ZERO ∈ l then ZERO
      else if UNKNOWN ∈ l then UNKNOWN
      else HI_Z := by
  rcases l with _ | ⟨a, t⟩
  · simp [resolveWireState]
  · rw [resolveWireState]
    simp only [List.length_cons, Nat.succ_ne_zero, if_false]
    rw [resolveLoop_eq]
    simp only [Bool.false_or, resolveFinish]
    by_cases hc : CONFLICT ∈ a :: t <;>
      by_cases h0 : ZERO ∈ a :: t <;>
        by_cases h1 : ONE ∈ a :: t <;>
          by_cases hu : UNKNOWN ∈ a :: t <;>
            simp [hc, h0, h1, hu]

/-- C3: for every finite multiset of `StateType` values, `resolveWireState`
returns `CONFLICT` if any element is `CONFLICT` or both a `ZERO` and a `ONE`
are present; else `ONE` if any element is `ONE`; else `ZERO` if any element is
`ZERO`; else `UNKNOWN` if any element is `UNKNOWN`; else `HI_Z` (in particular
for the empty list). -/
theorem resolveWireState_priority (l : List StateType) :
    resolveWireState l =
      if CONFLICT ∈ l ∨ (ZERO ∈ l ∧ ONE ∈ l) then CONFLICT
      else if ONE ∈ l then ONE
      else if ZERO ∈ l then ZERO
      else if UNKNOWN ∈ l then UNKNOWN
      else HI_Z :=
  resolveWireState_char l

/-- C9: the wire resolver is commutative on pairs, idempotent, absorbs a
leading `HI_Z` driver, and is invariant under arbitrary permutation of its
input list. -/
theorem resolveWireState_algebra :
    (∀ a b, resolveWireState [a, b] = resolveWireState [b, a]) ∧
    (∀ a, resolveWireState [a, a] = resolveWireState [a]) ∧
    (∀ x rest, resolveWireState ([HI_Z, x] ++ rest) = resolveWireState ([x] ++ rest)) ∧
    (∀ l₁ l₂ : List StateType, l₁.Perm l₂ → resolveWireState l₁ = resolveWireState l₂) := by
  refine ⟨by decide, by decide, ?_, ?_⟩
  · intro x rest
    rw [resolveWireState_char, resolveWireState_char]
    simp [List.mem_cons]
  · intro l₁ l₂ h
    rw [resolveWireState_char, resolveWireState_char]
    simp only [h.mem_iff]

/-- Witness for C9: the permutation-invariance conjunct applied to the concrete
lists `[ONE, ZERO]` and `[ZERO, ONE]`. -/
theorem resolveWireState_algebra_witness :
    resolveWireState [ONE, ZERO] = resolveWireState [ZERO, ONE] :=
  resolveWireState_algebra.2.2.2 [ONE, ZERO] [ZERO, ONE] (by decide)

/-- A simulation event (`SimulationEvent` in `types/state.ts`).  `portIndex`
is `-1` to denote a whole-gate evaluation, hence an `Int`.  `creationTime` is
the sequence number assigned by the queue at push time. -/
structure SimEvent where
  time : Nat
  creationTime : Nat
  gateId : String
  portIndex : Int
  newState : StateType
deriving DecidableEq, Repr, Inhabited

/-- Indexing `this.heap[i]` of `core/EventQueue.ts`; the source only indexes
in bounds (the `!` assertions), so the default is never observed there. -/
def heapGet (h : List SimEvent) (i : Nat) : SimEvent :=
  (h[i]?).getD default

/-- Method `swap` of `core/EventQueue.ts` (temp, two assignments). -/
def heapSwap (h : List SimEvent) (i j : Nat) : List SimEvent :=
  (h.set i (heapGet h j)).set j (heapGet h i)

/-- Sign of method `compare` of `core/EventQueue.ts`: `compare a b < 0`.  The
source returns `a.time - b.time` when the times differ and
`a.creationTime - b.creationTime` otherwise; its callers only test the sign. -/
def cmpLT (a b : SimEvent) : Bool :=
  decide (a.time < b.time) ||
    (decide (a.time = b.time) && decide (a.creationTime < b.creationTime))

/-- The priority event queue of `core/EventQueue.ts`: a binary min-heap in an
array, ordered by `(time, creationTime)`, plus the monotonic push counter. -/
structure EventQueue where
  heap : List SimEvent
  creationCounter : Nat
deriving DecidableEq, Repr

/-- A freshly constructed `EventQueue` (field initializers). -/
def EventQueue.new : EventQueue := ⟨[], 0⟩

/-- Body of method `bubbleUp` of `core/EventQueue.ts`: the `while (index > 0)`
loop, with an explicit iteration budget.  The index strictly decreases, so a
budget of `i + 1` always suffices (see `bubbleUp_unfold`). -/
def EventQueue.bubbleUpGo : Nat → List SimEvent → Nat → List SimEvent
  | 0, h, _ => h
  | fuel + 1, h, i =>
    if i = 0 then h
    else if cmpLT (heapGet h i) (heapGet h ((i - 1) / 2)) then
      EventQueue.bubbleUpGo fuel (heapSwap h i ((i - 1) / 2)) ((i - 1) / 2)
    else h

/-- Method `bubbleUp` of `core/EventQueue.ts`. -/
def EventQueue.bubbleUp (h : List SimEvent) (i : Nat) : List SimEvent :=
  EventQueue.bubbleUpGo (i + 1) h i

lemma bubbleUpGo_fuel :
    ∀ (i f1 f2 : Nat) (h : List SimEvent), i < f1 → i < f2 →
      EventQueue.bubbleUpGo f1 h i = EventQueue.bubbleUpGo f2 h i := by
  intro i
  induction i using Nat.strong_induction_on with
  | _ i ih =>
    intro f1 f2 h h1 h2
    obtain ⟨g1, rfl⟩ : ∃ g1, f1 = g1 + 1 := ⟨f1 - 1, by omega⟩
    obtain ⟨g2, rfl⟩ : ∃ g2, f2 = g2 + 1 := ⟨f2 - 1, by omega⟩
    simp only [EventQueue.bubbleUpGo]
    by_cases h0 : i = 0
    · simp [h0]
    · rw [if_neg h0, if_neg h0]
      by_cases hc : cmpLT (heapGet h i) (heapGet h ((i - 1) / 2)) = true
      · rw [if_pos hc, if_pos hc]
        have hp : (i - 1) / 2 < i := Nat.lt_of_le_of_lt (Nat.div_le_self _ _) (by omega)
        exact ih _ hp _ _ _ (by omega) (by omega)
      · rw [if_neg hc, if_neg hc]

/-- The loop-step unfolding of `bubbleUp`. -/
lemma bubbleUp_unfold (h : List SimEvent) (i : Nat) :
    EventQueue.bubbleUp h i =
      if i = 0 then h
      else if cmpLT (heapGet h i) (heapGet h ((i - 1) / 2)) then
        EventQueue.bubbleUp (heapSwap h i ((i - 1) / 2)) ((i - 1) / 2)
      else h := by
  show EventQueue.bubbleUpGo (i + 1) h i = _
  simp only [EventQueue.bubbleUpGo]
  by_cases h0 : i = 0
  · simp [h0]
  · rw [if_neg h0, if_neg h0]
    by_cases hc : cmpLT (heapGet h i) (heapGet h ((i - 1) / 2)) = true
    · rw [if_pos hc, if_pos hc]
      have hp : (i - 1) / 2 < i := Nat.lt_of_le_of_lt (Nat.div_le_self _ _) (by omega)
      exact bubbleUpGo_fuel _ _ _ _ hp (by omega)
    · rw [if_neg hc, if_neg hc]

/-- One iteration of the `bubbleDown` loop body of `core/EventQueue.ts`: the
final value of `smallest` after comparing with the left and right children. -/
def bdTarget (h : List SimEvent) (i : Nat) : Nat :=
  let leftChild := 2 * i + 1
  let rightChild := 2 * i + 2
  let s1 :=
    if leftChild < h.length ∧ cmpLT (heapGet h leftChild) (heapGet h i) then leftChild else i
  if rightChild < h.length ∧ cmpLT (heapGet h rightChild) (heapGet h s1) then rightChild else s1

/-- The target index either equals `i` (loop ends) or is a strictly larger
in-bounds child index. -/
lemma bdTarget_cases (h : List SimEvent) (i : Nat) :
    bdTarget h i = i ∨ (i < bdTarget h i ∧ bdTarget h i < h.length) := by
  simp only [bdTarget]
  split_ifs with h1 h2 h3 <;> omega

lemma heapSwap_length (h : List SimEvent) (i j : Nat) :
    (heapSwap h i j).length = h.length := by
  simp [heapSwap]

/-- Body of method `bubbleDown` of `core/EventQueue.ts`: the
`while (shouldContinue)` loop, whose body either stops (`smallest ===
currentIndex`) or swaps and descends, with an explicit iteration budget.  The
index strictly increases below the fixed array length, so a budget of
`h.length + 1 - i` always suffices (see `bubbleDown_unfold`). -/
def EventQueue.bubbleDownGo : Nat → List SimEvent → Nat → List SimEvent
  | 0, h, _ => h
  | fuel + 1, h, i =>
    if bdTarget h i = i then h
    else EventQueue.bubbleDownGo fuel (heapSwap h i (bdTarget h i)) (bdTarget h i)

/-- Method `bubbleDown` of `core/EventQueue.ts`. -/
def EventQueue.bubbleDown (h : List SimEvent) (i : Nat) : List SimEvent :=
  EventQueue.bubbleDownGo (h.length + 1 - i) h i

lemma bubbleDownGo_fuel :
    ∀ (f1 f2 : Nat) (h : List SimEvent) (i : Nat),
      h.length - i < f1 → h.length - i < f2 →
      EventQueue.bubbleDownGo f1 h i = EventQueue.bubbleDownGo f2 h i := by
  intro f1
  induction f1 with
  | zero => intro f2 h i hf1; omega
  | succ g1 ih =>
    intro f2 h i hf1 hf2
    obtain ⟨g2, rfl⟩ : ∃ g2, f2 = g2 + 1 := ⟨f2 - 1, by omega⟩
    simp only [EventQueue.bubbleDownGo]
    by_cases ht : bdTarget h i = i
    · simp [ht]
    · rw [if_neg ht, if_neg ht]
      rcases bdTarget_cases h i with hc | hc
      · exact absurd hc ht
      · exact ih _ _ _ (by rw [heapSwap_length]; omega) (by rw [heapSwap_length]; omega)

/-- The loop-step unfolding of `bubbleDown`. -/
lemma bubbleDown_unfold (h : List SimEvent) (i : Nat) :
    EventQueue.bubbleDown h i =
      if bdTarget h i = i then h
      else EventQueue.bubbleDown (heapSwap h i (bdTarget h i)) (bdTarget h i) := by
  by_cases hi : i ≤ h.length
  · show EventQueue.bubbleDownGo (h.length + 1 - i) h i = _
    rw [show h.length + 1 - i = (h.length - i) + 1 from by omega]
    simp only [EventQueue.bubbleDownGo]
    by_cases ht : bdTarget h i = i
    · simp [ht]
    · rw [if_neg ht, if_neg ht]
      rcases bdTarget_cases h i with hc | hc
      · exact absurd hc ht
      · refine bubbleDownGo_fuel _ _ _ _ ?_ ?_
        · rw [heapSwap_length]; omega
        · rw [heapSwap_length]; omega
  · have ht : bdTarget h i = i := by
      rcases bdTarget_cases h i with hc | hc
      · exact hc
      · omega
    rw [if_pos ht]
    show EventQueue.bubbleDownGo (h.length + 1 - i) h i = h
    rw [show h.length + 1 - i = 0 from by omega]
    rfl

/-- Method `push` of `core/EventQueue.ts`: stamp the event with the next
`creationTime`, append it and sift it up. -/
def EventQueue.push (q : EventQueue) (time : Nat) (gateId : String)
    (portIndex : Int) (newState : StateType) : EventQueue :=
  let fullEvent : SimEvent :=
    { time := time, creationTime := q.creationCounter, gateId := gateId,
      portIndex := portIndex, newState := newState }
  let h := q.heap ++ [fullEvent]
  { heap := EventQueue.bubbleUp h (h.length - 1),
    creationCounter := q.creationCounter + 1 }

/-- Method `pop` of `core/EventQueue.ts`: return the root, move the last array
element to the root and sift it down. -/
def EventQueue.pop (q : EventQueue) : Option SimEvent × EventQueue :=
  match q.heap with
  | [] => (none, q)
  | [e] => (some e, { q with heap := [] })
  | e :: t₁ :: t =>
    let lastE := ((t₁ :: t).getLast?).getD default
    let h := lastE :: (t₁ :: t).dropLast
    (some e, { q with heap := EventQueue.bubbleDown h 0 })

/-- Method `peek` of `core/EventQueue.ts`. -/
def EventQueue.peek (q : EventQueue) : Option SimEvent :=
  q.heap.head?

/-- Method `isEmpty` of `core/EventQueue.ts`. -/
def EventQueue.isEmpty (q : EventQueue) : Bool :=
  q.heap.length == 0

/-- Method `clear` of `core/EventQueue.ts`. -/
def EventQueue.clear (_q : EventQueue) : EventQueue := ⟨[], 0⟩

/-- The `for` loop of method `rebuildHeap` of `core/EventQueue.ts`: sift down
indices `k-1, k-2, …, 0`. -/
def EventQueue.rebuildAux (h : List SimEvent) : Nat → List SimEvent
  | 0 => h
  | k + 1 => EventQueue.rebuildAux (EventQueue.bubbleDown h k) k

/-- Method `rebuildHeap` of `core/EventQueue.ts`: sift down from
`floor(length / 2) - 1` to `0`. -/
def EventQueue.rebuildHeap (h : List SimEvent) : List SimEvent :=
  EventQueue.rebuildAux h (h.length / 2)

/-- Method `removeEventsForGate` of `core/EventQueue.ts`: drop the gate's
events, then rebuild the heap. -/
def EventQueue.removeEventsForGate (q : EventQueue) (gateId : String) : EventQueue :=
  { q with heap := EventQueue.rebuildHeap (q.heap.filter (fun e => e.gateId != gateId)) }

/-- Non-strict `(time, creationTime)` lexicographic order on events: the order
in which `pop` is claimed to deliver them. -/
def leP (a b : SimEvent) : Prop :=
  a.time < b.time ∨ (a.time = b.time ∧ a.creationTime ≤ b.creationTime)

lemma cmpLT_false_iff (a b : SimEvent) : cmpLT a b = false ↔ leP b a := by
  simp only [cmpLT, leP, Bool.or_eq_false_iff, Bool.and_eq_false_iff,
    decide_eq_false_iff_not, not_lt]
  omega

lemma cmpLT_true_le (a b : SimEvent) (h : cmpLT a b = true) : leP a b := by
  simp only [cmpLT, Bool.or_eq_true, Bool.and_eq_true, decide_eq_true_eq] at h
  unfold leP
  omega

lemma leP_refl (a : SimEvent) : leP a a := by unfold leP; omega

lemma leP_trans {a b c : SimEvent} (h1 : leP a b) (h2 : leP b c) : leP a c := by
  unfold leP at *; omega

/-- The binary min-heap invariant of the event array: every non-root entry is
at least its parent in the `(time, creationTime)` order. -/
def IsHeap (h : List SimEvent) : Prop :=
  ∀ c, 0 < c → c < h.length → leP (heapGet h ((c - 1) / 2)) (heapGet h c)

/-- Sift-up invariant: the parent/child ordering holds everywhere except
possibly at the hole `i`, and the hole's children are bounded by the hole's
parent (so that parent may move down into the hole). -/
def UpInv (h : List SimEvent) (i : Nat) : Prop :=
  (∀ c, 0 < c → c < h.length → c ≠ i → leP (heapGet h ((c - 1) / 2)) (heapGet h c)) ∧
  (∀ c, 0 < c → c < h.length → (c - 1) / 2 = i → 0 < i →
    leP (heapGet h ((i - 1) / 2)) (heapGet h c))

/-- Sift-down invariant: the parent/child ordering holds for every edge whose
parent is not the hole `i`, and the hole's children are bounded by the hole's
parent. -/
def DownInv (h : List SimEvent) (i : Nat) : Prop :=
  (∀ c, 0 < c → c < h.length → (c - 1) / 2 ≠ i → leP (heapGet h ((c - 1) / 2)) (heapGet h c)) ∧
  (0 < i → ∀ c, 0 < c → c < h.length → (c - 1) / 2 = i →
    leP (heapGet h ((i - 1) / 2)) (heapGet h c))

lemma heapGet_set_self (h : List SimEvent) (i : Nat) (a : SimEvent) (hi : i < h.length) :
    heapGet (h.set i a) i = a := by
  simp [heapGet, List.getElem?_set_self', hi]

lemma heapGet_set_ne (h : List SimEvent) (i j : Nat) (a : SimEvent) (hne : i ≠ j) :
    heapGet (h.set i a) j = heapGet h j := by
  simp [heapGet, List.getElem?_set_ne hne]

/-- Reading a swapped array: position `j` holds the old `i` entry, position `i`
the old `j` entry, everything else is unchanged. -/
lemma heapGet_swap (h : List SimEvent) (i j m : Nat) (hi : i < h.length) (hj : j < h.length) :
    heapGet (heapSwap h i j) m =
      if m = j then heapGet h i else if m = i then heapGet h j else heapGet h m := by
  unfold heapSwap
  by_cases hmj : m = j
  · subst hmj
    simp only [if_pos rfl]
    exact heapGet_set_self _ _ _ (by simpa using hj)
  · rw [heapGet_set_ne _ _ _ _ (fun hh => hmj hh.symm)]
    by_cases hmi : m = i
    · subst hmi
      simp only [if_neg hmj, if_pos rfl]
      exact heapGet_set_self _ _ _ hi
    · rw [heapGet_set_ne _ _ _ _ (fun hh => hmi hh.symm)]
      simp [hmj, hmi]

lemma heapGet_eq (h : List SimEvent) (i : Nat) (hi : i < h.length) :
    heapGet h i = h.get ⟨i, hi⟩ := by
  simp [heapGet, List.getElem?_eq_getElem hi]

lemma cmpLT_trans {a b c : SimEvent} (h1 : cmpLT a b = true) (h2 : cmpLT b c = true) :
    cmpLT a c = true := by
  simp only [cmpLT, Bool.or_eq_true, Bool.and_eq_true, decide_eq_true_eq] at *
  omega

/-- Replacing position `m` by `a` and carrying the old entry to the front is a
permutation of putting `a` at the front. -/
lemma set_cons_perm :
    ∀ (l : List SimEvent) (m : Nat) (a : SimEvent), m < l.length →
      (heapGet l m :: l.set m a).Perm (a :: l) := by
  intro l
  induction l with
  | nil => intro m a hm; simp at hm
  | cons b t ih =>
    intro m a hm
    match m with
    | 0 =>
      have hb : heapGet (b :: t) 0 = b := by simp [heapGet]
      rw [hb]
      exact List.Perm.swap a b t
    | Nat.succ k =>
      have hk : heapGet (b :: t) (k + 1) = heapGet t k := by simp [heapGet]
      have hset : (b :: t).set (k + 1) a = b :: t.set k a := rfl
      rw [hk, hset]
      exact List.Perm.trans (List.Perm.swap b (heapGet t k) (t.set k a))
        (List.Perm.trans (List.Perm.cons b (ih k a (by simpa using hm)))
          (List.Perm.swap a b t))

/-- Swapping two in-bounds positions permutes the array. -/
lemma heapSwap_perm :
    ∀ (h : List SimEvent) (i j : Nat), i < h.length → j < h.length →
      (heapSwap h i j).Perm h := by
  intro h
  induction h with
  | nil => intro i j hi; simp at hi
  | cons a t ih =>
    intro i j hi hj
    match i, j with
    | 0, 0 =>
      simp [heapSwap, heapGet]
    | 0, Nat.succ n =>
      have h1 : heapGet (a :: t) 0 = a := by simp [heapGet]
      have h2 : heapGet (a :: t) (n + 1) = heapGet t n := by simp [heapGet]
      have : heapSwap (a :: t) 0 (n + 1) = heapGet t n :: t.set n a := by
        simp [heapSwap, h1, h2]
      rw [this]
      exact set_cons_perm t n a (by simpa using hj)
    | Nat.succ m, 0 =>
      have h1 : heapGet (a :: t) 0 = a := by simp [heapGet]
      have h2 : heapGet (a :: t) (m + 1) = heapGet t m := by simp [heapGet]
      have : heapSwap (a :: t) (m + 1) 0 = heapGet t m :: t.set m a := by
        simp [heapSwap, h1, h2]
      rw [this]
      exact set_cons_perm t m a (by simpa using hi)
    | Nat.succ m, Nat.succ n =>
      have : heapSwap (a :: t) (m + 1) (n + 1) = a :: heapSwap t m n := by
        simp [heapSwap, heapGet]
      rw [this]
      exact List.Perm.cons a (ih m n (by simpa using hi) (by simpa using hj))

lemma bubbleUp_perm :
    ∀ (i : Nat) (h : List SimEvent), i < h.length →
      (EventQueue.bubbleUp h i).Perm h := by
  intro i
  induction i using Nat.strong_induction_on with
  | _ i ih =>
    intro h hlen
    rw [bubbleUp_unfold]
    by_cases h0 : i = 0
    · simp [h0]
    · rw [if_neg h0]
      have hpi : (i - 1) / 2 < i := Nat.lt_of_le_of_lt (Nat.div_le_self _ _) (by omega)
      have hplen : (i - 1) / 2 < h.length := lt_trans hpi hlen
      by_cases hcmp : cmpLT (heapGet h i) (heapGet h ((i - 1) / 2)) = true
      · rw [if_pos hcmp]
        exact List.Perm.trans
          (ih _ hpi _ (by rw [heapSwap_length]; exact hplen))
          (heapSwap_perm h i _ hlen hplen)
      · rw [if_neg hcmp]

lemma bubbleDown_perm :
    ∀ (n : Nat) (h : List SimEvent) (i : Nat), h.length - i ≤ n → i < h.length →
      (EventQueue.bubbleDown h i).Perm h := by
  intro n
  induction n with
  | zero => intro h i hn hi; omega
  | succ n ih =>
    intro h i hn hi
    rw [bubbleDown_unfold]
    by_cases ht : bdTarget h i = i
    · rw [if_pos ht]
    · rw [if_neg ht]
      rcases bdTarget_cases h i with hc | hc
      · exact absurd hc ht
      · exact List.Perm.trans
          (ih _ _ (by rw [heapSwap_length]; omega) (by rw [heapSwap_length]; omega))
          (heapSwap_perm h i _ hi hc.2)

lemma rebuildAux_perm :
    ∀ (k : Nat) (h : List SimEvent), k ≤ h.length →
      (EventQueue.rebuildAux h k).Perm h := by
  intro k
  induction k with
  | zero => intro h hk; exact List.Perm.refl h
  | succ k ih =>
    intro h hk
    have hperm : (EventQueue.bubbleDown h k).Perm h :=
      bubbleDown_perm h.length h k (by omega) (by omega)
    exact List.Perm.trans
      (ih _ (by rw [hperm.length_eq]; omega)) hperm

lemma rebuildHeap_perm (h : List SimEvent) :
    (EventQueue.rebuildHeap h).Perm h :=
  rebuildAux_perm _ h (Nat.div_le_self _ _)

/-- Sift-up correctness: from the sift-up invariant at the hole, `bubbleUp`
restores the full heap invariant. -/
lemma bubbleUp_isHeap :
    ∀ (i : Nat) (h : List SimEvent), i < h.length → UpInv h i →
      IsHeap (EventQueue.bubbleUp h i) := by
  intro i
  induction i using Nat.strong_induction_on with
  | _ i ih =>
    intro h hlen hinv
    rw [bubbleUp_unfold]
    by_cases h0 : i = 0
    · rw [if_pos h0]
      intro c hc0 hcl
      exact hinv.1 c hc0 hcl (by omega)
    · rw [if_neg h0]
      have hpi : (i - 1) / 2 < i := Nat.lt_of_le_of_lt (Nat.div_le_self _ _) (by omega)
      have hplen : (i - 1) / 2 < h.length := lt_trans hpi hlen
      have hip : i ≠ (i - 1) / 2 := by omega
      by_cases hcmp : cmpLT (heapGet h i) (heapGet h ((i - 1) / 2)) = true
      · rw [if_pos hcmp]
        have hle : leP (heapGet h i) (heapGet h ((i - 1) / 2)) := cmpLT_true_le _ _ hcmp
        have hget : ∀ m, heapGet (heapSwap h i ((i - 1) / 2)) m =
            if m = (i - 1) / 2 then heapGet h i
            else if m = i then heapGet h ((i - 1) / 2) else heapGet h m :=
          fun m => heapGet_swap h i ((i - 1) / 2) m hlen hplen
        have g1 : heapGet (heapSwap h i ((i - 1) / 2)) ((i - 1) / 2) = heapGet h i := by
          rw [hget, if_pos rfl]
        have g2 : heapGet (heapSwap h i ((i - 1) / 2)) i = heapGet h ((i - 1) / 2) := by
          rw [hget, if_neg hip, if_pos rfl]
        have g3 : ∀ m, m ≠ i → m ≠ (i - 1) / 2 →
            heapGet (heapSwap h i ((i - 1) / 2)) m = heapGet h m := by
          intro m hm1 hm2
          rw [hget, if_neg hm2, if_neg hm1]
        have hlen' : (heapSwap h i ((i - 1) / 2)).length = h.length := heapSwap_length h i _
        refine ih _ hpi _ (by rw [hlen']; exact hplen) ⟨?_, ?_⟩
        · -- heap edges away from the new hole
          intro c hc0 hcl hcp
          rw [hlen'] at hcl
          by_cases hci : c = i
          · -- the swapped-down entry sits below the new hole
            subst hci
            rw [g1, g2]
            exact hle
          · by_cases hpc : (c - 1) / 2 = i
            · -- a former child of the old hole keeps its (moved-up) parent value
              rw [hpc, g2, g3 c hci hcp]
              exact hinv.2 c hc0 hcl hpc (by omega)
            · by_cases hpp : (c - 1) / 2 = (i - 1) / 2
              · -- a sibling subtree of the old hole: go through the moved entry
                rw [hpp, g1, g3 c hci hcp]
                refine leP_trans hle ?_
                have := hinv.1 c hc0 hcl hci
                rwa [hpp] at this
              · -- untouched edge
                rw [g3 _ hpc hpp, g3 c hci hcp]
                exact hinv.1 c hc0 hcl hci
        · -- children of the new hole are bounded by the new hole's parent
          intro c hc0 hcl hcp hp0
          rw [hlen'] at hcl
          have hgg : heapGet (heapSwap h i ((i - 1) / 2)) (((i - 1) / 2 - 1) / 2) =
              heapGet h (((i - 1) / 2 - 1) / 2) :=
            g3 _ (by omega) (by omega)
          by_cases hci : c = i
          · subst hci
            rw [hgg, g2]
            exact hinv.1 _ hp0 hplen (by omega)
          · rw [hgg, g3 c hci (by omega)]
            refine leP_trans (hinv.1 _ hp0 hplen (by omega)) ?_
            have := hinv.1 c hc0 hcl hci
            rwa [hcp] at this
      · rw [if_neg hcmp]
        intro c hc0 hcl
        by_cases hci : c = i
        · subst hci
          have hf : cmpLT (heapGet h c) (heapGet h ((c - 1) / 2)) = false := by
            simpa using hcmp
          exact (cmpLT_false_iff _ _).mp hf
        · exact hinv.1 c hc0 hcl hci

/-- When the sift-down loop stops, the hole is at most both of its present
children. -/
lemma bdTarget_self_le (h : List SimEvent) (i : Nat) (ht : bdTarget h i = i) :
    ∀ c, (c = 2 * i + 1 ∨ c = 2 * i + 2) → c < h.length →
      leP (heapGet h i) (heapGet h c) := by
  intro c hc hcl
  simp only [bdTarget] at ht
  split_ifs at ht with h1 h2 h2
  · exact absurd ht (by omega)
  · exact absurd ht (by omega)
  · exact absurd ht (by omega)
  · rcases hc with hc | hc
    · subst hc
      have hb : cmpLT (heapGet h (2 * i + 1)) (heapGet h i) = false := by
        by_cases hx : cmpLT (heapGet h (2 * i + 1)) (heapGet h i) = true
        · exact absurd ⟨hcl, hx⟩ h1
        · simpa using hx
      exact (cmpLT_false_iff _ _).mp hb
    · subst hc
      have hb : cmpLT (heapGet h (2 * i + 2)) (heapGet h i) = false := by
        by_cases hx : cmpLT (heapGet h (2 * i + 2)) (heapGet h i) = true
        · exact absurd ⟨hcl, hx⟩ h2
        · simpa using hx
      exact (cmpLT_false_iff _ _).mp hb

/-- When the sift-down loop continues, the target is an in-bounds child of the
hole, strictly smaller than the hole, and at most the other present child. -/
lemma bdTarget_step (h : List SimEvent) (i : Nat) (ht : bdTarget h i ≠ i) :
    i < bdTarget h i ∧ bdTarget h i < h.length ∧ (bdTarget h i - 1) / 2 = i ∧
    cmpLT (heapGet h (bdTarget h i)) (heapGet h i) = true ∧
    (∀ c, (c = 2 * i + 1 ∨ c = 2 * i + 2) → c < h.length → c ≠ bdTarget h i →
      leP (heapGet h (bdTarget h i)) (heapGet h c)) := by
  simp only [bdTarget] at ht ⊢
  split_ifs at * with h1 h2 h2
  · -- right child beats the (winning) left child
    refine ⟨by omega, h2.1, by omega, cmpLT_trans h2.2 h1.2, ?_⟩
    intro c hc hcl hct
    rcases hc with hc | hc
    · subst hc; exact cmpLT_true_le _ _ h2.2
    · exact absurd hc hct
  · -- left child wins
    refine ⟨by omega, h1.1, by omega, h1.2, ?_⟩
    intro c hc hcl hct
    rcases hc with hc | hc
    · exact absurd hc hct
    · subst hc
      have hb : cmpLT (heapGet h (2 * i + 2)) (heapGet h (2 * i + 1)) = false := by
        by_cases hx : cmpLT (heapGet h (2 * i + 2)) (heapGet h (2 * i + 1)) = true
        · exact absurd ⟨hcl, hx⟩ h2
        · simpa using hx
      exact (cmpLT_false_iff _ _).mp hb
  · -- only the right child beats the hole
    refine ⟨by omega, h2.1, by omega, h2.2, ?_⟩
    intro c hc hcl hct
    rcases hc with hc | hc
    · subst hc
      have hb : cmpLT (heapGet h (2 * i + 1)) (heapGet h i) = false := by
        by_cases hx : cmpLT (heapGet h (2 * i + 1)) (heapGet h i) = true
        · exact absurd ⟨hcl, hx⟩ h1
        · simpa using hx
      exact leP_trans (cmpLT_true_le _ _ h2.2) ((cmpLT_false_iff _ _).mp hb)
    · exact absurd hc hct
  · exact absurd rfl ht

/-- Sift-down correctness: from the sift-down invariant at the hole,
`bubbleDown` restores the full heap invariant.  `n` bounds the number of
remaining levels. -/
lemma bubbleDown_isHeap :
    ∀ (n : Nat) (h : List SimEvent) (i : Nat), h.length - i ≤ n → i < h.length →
      DownInv h i → IsHeap (EventQueue.bubbleDown h i) := by
  intro n
  induction n with
  | zero => intro h i hn hi _; omega
  | succ n ih =>
    intro h i hn hi hinv
    rw [bubbleDown_unfold]
    by_cases ht : bdTarget h i = i
    · rw [if_pos ht]
      intro c hc0 hcl
      by_cases hpc : (c - 1) / 2 = i
      · have hc12 : c = 2 * i + 1 ∨ c = 2 * i + 2 := by omega
        have := bdTarget_self_le h i ht c hc12 hcl
        rwa [hpc]
      · exact hinv.1 c hc0 hcl hpc
    · rw [if_neg ht]
      obtain ⟨hti, htl, htp, htc, hto⟩ := bdTarget_step h i ht
      have hget : ∀ m, heapGet (heapSwap h i (bdTarget h i)) m =
          if m = bdTarget h i then heapGet h i
          else if m = i then heapGet h (bdTarget h i) else heapGet h m :=
        fun m => heapGet_swap h i (bdTarget h i) m hi htl
      have g1 : heapGet (heapSwap h i (bdTarget h i)) (bdTarget h i) = heapGet h i := by
        rw [hget, if_pos rfl]
      have g2 : heapGet (heapSwap h i (bdTarget h i)) i = heapGet h (bdTarget h i) := by
        rw [hget, if_neg (by omega), if_pos rfl]
      have g3 : ∀ m, m ≠ i → m ≠ bdTarget h i →
          heapGet (heapSwap h i (bdTarget h i)) m = heapGet h m := by
        intro m hm1 hm2
        rw [hget, if_neg hm2, if_neg hm1]
      have hlen' : (heapSwap h i (bdTarget h i)).length = h.length := heapSwap_length h i _
      refine ih _ _ (by rw [hlen']; omega) (by rw [hlen']; exact htl) ⟨?_, ?_⟩
      · intro c hc0 hcl hcp
        rw [hlen'] at hcl
        by_cases hct : c = bdTarget h i
        · subst hct
          rw [htp, g1, g2]
          exact cmpLT_true_le _ _ htc
        · by_cases hpc : (c - 1) / 2 = i
          · have hc12 : c = 2 * i + 1 ∨ c = 2 * i + 2 := by omega
            rw [hpc, g2, g3 c (by omega) hct]
            exact hto c hc12 hcl hct
          · by_cases hci : c = i
            · subst hci
              have h0c : 0 < c := hc0
              rw [g3 _ (by omega) (by omega), g2]
              exact hinv.2 hc0 _ (by omega) htl htp
            · rw [g3 _ hpc hcp, g3 c hci hct]
              exact hinv.1 c hc0 hcl hpc
      · intro ht0 c hc0 hcl hcp
        rw [hlen'] at hcl
        have hctc : bdTarget h i < c := by omega
        rw [htp, g2, g3 c (by omega) (by omega)]
        have := hinv.1 c hc0 hcl (by omega)
        rwa [hcp] at this

/-- In a heap, the root is at most every entry. -/
lemma isHeap_root_min (h : List SimEvent) (hh : IsHeap h) :
    ∀ c, c < h.length → leP (heapGet h 0) (heapGet h c) := by
  intro c
  induction c using Nat.strong_induction_on with
  | _ c ih =>
    intro hcl
    rcases Nat.eq_zero_or_pos c with hc | hc
    · subst hc; exact leP_refl _
    · exact leP_trans
        (ih ((c - 1) / 2) (by omega) (by omega))
        (hh c hc hcl)

lemma isHeap_root_min_mem (h : List SimEvent) (hh : IsHeap h) (e : SimEvent)
    (he : e ∈ h) : leP (heapGet h 0) e := by
  obtain ⟨i, hi, hie⟩ := List.mem_iff_getElem.mp he
  have := isHeap_root_min h hh i hi
  rwa [heapGet_eq h i hi, List.get_eq_getElem, hie] at this

lemma heapGet_append_lt (h : List SimEvent) (e : SimEvent) (c : Nat) (hc : c < h.length) :
    heapGet (h ++ [e]) c = heapGet h c := by
  simp [heapGet, List.getElem?_append_left hc]

lemma push_isHeap (q : EventQueue) (t : Nat) (g : String) (p : Int) (s : StateType)
    (hh : IsHeap q.heap) : IsHeap (q.push t g p s).heap := by
  simp only [EventQueue.push]
  have hidx : (q.heap ++
      [({ time := t, creationTime := q.creationCounter, gateId := g, portIndex := p,
          newState := s } : SimEvent)]).length - 1 = q.heap.length := by simp
  rw [hidx]
  apply bubbleUp_isHeap
  · simp
  · constructor
    · intro c hc0 hcl hcn
      have hc : c < q.heap.length := by
        simp only [List.length_append, List.length_cons, List.length_nil] at hcl
        omega
      rw [heapGet_append_lt _ _ _ hc, heapGet_append_lt _ _ _ (by omega)]
      exact hh c hc0 hc
    · intro c hc0 hcl hcp
      exfalso
      simp only [List.length_append, List.length_cons, List.length_nil] at hcl
      omega

lemma push_heap_perm (q : EventQueue) (t : Nat) (g : String) (p : Int) (s : StateType) :
    (q.push t g p s).heap.Perm (q.heap ++
      [{ time := t, creationTime := q.creationCounter, gateId := g, portIndex := p,
         newState := s }]) := by
  simp only [EventQueue.push]
  have hidx : (q.heap ++
      [({ time := t, creationTime := q.creationCounter, gateId := g, portIndex := p,
          newState := s } : SimEvent)]).length - 1 = q.heap.length := by simp
  rw [hidx]
  apply bubbleUp_perm
  simp

lemma push_counter (q : EventQueue) (t : Nat) (g : String) (p : Int) (s : StateType) :
    (q.push t g p s).creationCounter = q.creationCounter + 1 := rfl

lemma pop_fst (q : EventQueue) : (q.pop).1 = q.heap.head? := by
  obtain ⟨hp, cnt⟩ := q
  match hp with
  | [] => rfl
  | [e] => rfl
  | e :: t₁ :: t => rfl

lemma pop_counter (q : EventQueue) : (q.pop).2.creationCounter = q.creationCounter := by
  obtain ⟨hp, cnt⟩ := q
  match hp with
  | [] => rfl
  | [e] => rfl
  | e :: t₁ :: t => rfl

lemma heapGet_dropLast (l : List SimEvent) (m : Nat) (hm : m < l.length - 1) :
    heapGet l.dropLast m = heapGet l m := by
  rw [List.dropLast_eq_take]
  simp only [heapGet]
  rw [List.getElem?_take, if_pos (by omega)]

lemma pop_isHeap (q : EventQueue) (hh : IsHeap q.heap) : IsHeap (q.pop).2.heap := by
  obtain ⟨hp, cnt⟩ := q
  match hp with
  | [] => exact hh
  | [e] =>
    show IsHeap ([] : List SimEvent)
    intro c hc0 hcl
    simp at hcl
  | e :: t₁ :: t =>
    show IsHeap (EventQueue.bubbleDown
      ((((t₁ :: t).getLast?).getD default) :: (t₁ :: t).dropLast) 0)
    have hlenX : ((((t₁ :: t).getLast?).getD default) :: (t₁ :: t).dropLast).length =
        t.length + 1 := by simp
    apply bubbleDown_isHeap (t.length + 1)
    · omega
    · omega
    · constructor
      · intro c hc0 hcl hcp
        rw [hlenX] at hcl
        have hv : ∀ m, 1 ≤ m → m < t.length + 1 →
            heapGet ((((t₁ :: t).getLast?).getD default) :: (t₁ :: t).dropLast) m =
              heapGet (e :: t₁ :: t) m := by
          intro m hm1 hm2
          obtain ⟨k, rfl⟩ : ∃ k, m = k + 1 := ⟨m - 1, by omega⟩
          have e1 : heapGet ((((t₁ :: t).getLast?).getD default) :: (t₁ :: t).dropLast)
              (k + 1) = heapGet ((t₁ :: t).dropLast) k := by simp [heapGet]
          have e2 : heapGet (t₁ :: t) k = heapGet (e :: t₁ :: t) (k + 1) := by
            simp [heapGet]
          rw [e1, heapGet_dropLast _ _ (by simp; omega), e2]
        rw [hv c (by omega) hcl, hv ((c - 1) / 2) (by omega) (by omega)]
        exact hh c hc0 (by simp; omega)
      · intro h0; omega

lemma pop_perm (q : EventQueue) : (q.pop).2.heap.Perm q.heap.tail := by
  obtain ⟨hp, cnt⟩ := q
  match hp with
  | [] => exact List.Perm.refl _
  | [e] => exact List.Perm.refl _
  | e :: t₁ :: t =>
    show (EventQueue.bubbleDown
      ((((t₁ :: t).getLast?).getD default) :: (t₁ :: t).dropLast) 0).Perm (t₁ :: t)
    have h1 : (EventQueue.bubbleDown
        ((((t₁ :: t).getLast?).getD default) :: (t₁ :: t).dropLast) 0).Perm
        ((((t₁ :: t).getLast?).getD default) :: (t₁ :: t).dropLast) :=
      bubbleDown_perm (t.length + 2) _ 0 (by simp) (by simp)
    refine h1.trans ?_
    have hne : (t₁ :: t) ≠ [] := by simp
    have hlast : ((t₁ :: t).getLast?).getD default = (t₁ :: t).getLast hne := by
      rw [List.getLast?_eq_getLast _ hne]
      rfl
    rw [hlast]
    have hsplit : (t₁ :: t).dropLast ++ [(t₁ :: t).getLast hne] = t₁ :: t :=
      List.dropLast_append_getLast hne
    have hperm2 : ((t₁ :: t).dropLast ++ [(t₁ :: t).getLast hne]).Perm
        ((t₁ :: t).getLast hne :: (t₁ :: t).dropLast) :=
      List.perm_append_singleton _ _
    rw [hsplit] at hperm2
    exact hperm2.symm

/-- Counter invariant of the queue: every pending event carries a sequence
number assigned by an earlier push (hence below the counter), and no two
pending events share a sequence number. -/
def CounterInv (q : EventQueue) : Prop :=
  (∀ e ∈ q.heap, e.creationTime < q.creationCounter) ∧
  (q.heap.map (fun e => e.creationTime)).Nodup

lemma push_counterInv (q : EventQueue) (t : Nat) (g : String) (p : Int) (s : StateType)
    (hc : CounterInv q) : CounterInv (q.push t g p s) := by
  have hperm := push_heap_perm q t g p s
  constructor
  · intro e he
    rw [push_counter]
    rcases List.mem_append.mp (hperm.mem_iff.mp he) with hm | hm
    · exact Nat.lt_succ_of_lt (hc.1 e hm)
    · simp only [List.mem_singleton] at hm
      subst hm
      exact Nat.lt_succ_self _
  · have h1 := hperm.map (fun e => e.creationTime)
    rw [h1.nodup_iff]
    have h2 := (List.perm_append_singleton
      (q.creationCounter) (q.heap.map (fun e => e.creationTime))).nodup_iff
    simp only [List.map_append, List.map_cons, List.map_nil]
    rw [h2, List.nodup_cons]
    exact ⟨fun hmem => by
      obtain ⟨e, he, hee⟩ := List.mem_map.mp hmem
      exact absurd hee (Nat.ne_of_lt (hc.1 e he)), hc.2⟩

lemma pop_counterInv (q : EventQueue) (hc : CounterInv q) : CounterInv (q.pop).2 := by
  have hperm := pop_perm q
  constructor
  · intro e he
    rw [pop_counter]
    exact hc.1 e ((List.tail_sublist q.heap).mem (hperm.mem_iff.mp he))
  · have h1 := hperm.map (fun e => e.creationTime)
    rw [h1.nodup_iff]
    exact List.Nodup.sublist ((List.tail_sublist q.heap).map _) hc.2

/-- The well-formedness invariant maintained across queue operations. -/
def GoodQueue (q : EventQueue) : Prop :=
  IsHeap q.heap ∧ CounterInv q

/-- An operation on the event queue, for stating properties over arbitrary
operation histories. -/
inductive EQOp where
  | pushOp (time : Nat) (gateId : String) (portIndex : Int) (newState : StateType)
  | popOp

/-- Apply one queue operation (a `pop` discards the returned event). -/
def applyOp (q : EventQueue) : EQOp → EventQueue
  | .pushOp t g p s => q.push t g p s
  | .popOp => (q.pop).2

/-- Run a sequence of queue operations from the freshly constructed queue. -/
def applyOps (ops : List EQOp) : EventQueue :=
  ops.foldl applyOp EventQueue.new

lemma foldl_goodQueue (ops : List EQOp) :
    ∀ q, GoodQueue q → GoodQueue (ops.foldl applyOp q) := by
  induction ops with
  | nil => intro q hq; exact hq
  | cons op rest ih =>
    intro q hq
    refine ih (applyOp q op) ?_
    match op with
    | .pushOp t g p s =>
      exact ⟨push_isHeap q t g p s hq.1, push_counterInv q t g p s hq.2⟩
    | .popOp =>
      exact ⟨pop_isHeap q hq.1, pop_counterInv q hq.2⟩

lemma applyOps_good (ops : List EQOp) : GoodQueue (applyOps ops) := by
  refine foldl_goodQueue ops EventQueue.new ⟨?_, ?_, ?_⟩
  · intro c hc0 hcl; simp [EventQueue.new] at hcl
  · intro e he; simp [EventQueue.new] at he
  · simp [EventQueue.new]

/-- C4: after any sequence of push and pop operations, `pop` returns a pending
event that is minimal in the lexicographic `(time, sequence)` order among all
pending events (the sequence being the monotonic counter assigned at push), it
removes exactly that event, and every remaining event with the same time was
pushed later — so among equal-time events, pop order equals push order. -/
theorem eventQueue_pop_min_fifo (ops : List EQOp) (e : SimEvent)
    (hpop : ((applyOps ops).pop).1 = some e) :
    (∀ e' ∈ (applyOps ops).heap, leP e e') ∧
    ((applyOps ops).pop).2.heap.Perm ((applyOps ops).heap.tail) ∧
    (∀ e' ∈ ((applyOps ops).pop).2.heap, e'.time = e.time →
      e.creationTime < e'.creationTime) := by
  obtain ⟨hheap, hbound, hnodup⟩ := applyOps_good ops
  rw [pop_fst] at hpop
  obtain ⟨tl, htl⟩ : ∃ tl, (applyOps ops).heap = e :: tl := by
    cases hq : (applyOps ops).heap with
    | nil => rw [hq] at hpop; simp at hpop
    | cons a t =>
      rw [hq] at hpop
      simp only [List.head?_cons, Option.some.injEq] at hpop
      exact ⟨t, by rw [hpop]⟩
  have hroot : heapGet (applyOps ops).heap 0 = e := by
    rw [htl]; simp [heapGet]
  refine ⟨?_, pop_perm _, ?_⟩
  · intro e' he'
    have := isHeap_root_min_mem _ hheap e' he'
    rwa [hroot] at this
  · intro e' he' htime
    have hmemtl : e' ∈ (applyOps ops).heap.tail := (pop_perm _).mem_iff.mp he'
    have hmem : e' ∈ (applyOps ops).heap := (List.tail_sublist _).mem hmemtl
    have hle : leP e e' := by
      have := isHeap_root_min_mem _ hheap e' hmem
      rwa [hroot] at this
    have hne : e.creationTime ≠ e'.creationTime := by
      rw [htl] at hnodup hmemtl
      simp only [List.map_cons, List.nodup_cons] at hnodup
      simp only [List.tail_cons] at hmemtl
      intro hEq
      exact hnodup.1 (by
        rw [hEq]
        exact List.mem_map_of_mem _ hmemtl)
    unfold leP at hle
    omega

/-- Concrete history used to witness C4. -/
def c4ops : List EQOp :=
  [EQOp.pushOp 5 "a" (-1) StateType.UNKNOWN,
   EQOp.pushOp 3 "b" (-1) StateType.UNKNOWN,
   EQOp.pushOp 3 "c" (-1) StateType.UNKNOWN]

/-- Witness for C4: after pushing events at times 5, 3, 3, `pop` returns the
time-3 event pushed first (sequence 1) and removes exactly it. -/
theorem eventQueue_pop_min_fifo_witness :
    ((applyOps c4ops).pop).1 =
      some { time := 3, creationTime := 1, gateId := "b", portIndex := -1,
             newState := StateType.UNKNOWN } ∧
    ((applyOps c4ops).pop).2.heap.Perm ((applyOps c4ops).heap.tail) := by
  have hev : ((applyOps c4ops).pop).1 =
      some { time := 3, creationTime := 1, gateId := "b", portIndex := -1,
             newState := StateType.UNKNOWN } := by decide
  exact ⟨hev, (eventQueue_pop_min_fifo c4ops _ hev).2.1⟩

/-- Value in an untyped `internalState: Record<string, unknown>` record or a
`params` map.  Only the value shapes the modelled gates store are included:
logic states, integers, booleans, and RAM/ROM memory maps
(`Record<string, StateType[]>`). -/
inductive JsValue where
  | vstate (s : StateType)
  | vnat (n : Nat)
  | vbool (b : Bool)
  | vmem (m : List (String × List StateType))
deriving DecidableEq, Repr

/-- Lookup in an insertion-ordered association list (JavaScript object /
`Map` read). -/
def alGet {α : Type} : List (String × α) → String → Option α
  | [], _ => none
  | (k, v) :: rest, key => if k = key then some v else alGet rest key

/-- Write in an insertion-ordered association list: update the entry in place
if the key exists, else append (JavaScript object / `Map` write). -/
def alSet {α : Type} : List (String × α) → String → α → List (String × α)
  | [], key, v => [(key, v)]
  | (k, w) :: rest, key, v =>
    if k = key then (key, v) :: rest else (k, w) :: alSet rest key v

/-- Deletion from an insertion-ordered association list (`Map.delete`). -/
def alDelete {α : Type} (m : List (String × α)) (key : String) : List (String × α) :=
  m.filter (fun p => p.1 != key)

/-- Read `record[key] as StateType` with a `?? d` fallback.  A present value of
another shape is replaced by the default; the sources never store one. -/
def getStateD (r : List (String × JsValue)) (key : String) (d : StateType) : StateType :=
  match alGet r key with
  | some (JsValue.vstate s) => s
  | _ => d

/-- Read `record[key] as number` with a `?? d` fallback. -/
def getNatD (r : List (String × JsValue)) (key : String) (d : Nat) : Nat :=
  match alGet r key with
  | some (JsValue.vnat n) => n
  | _ => d

/-- Read `record[key] as boolean`, `undefined` being falsy. -/
def getBoolD (r : List (String × JsValue)) (key : String) (d : Bool) : Bool :=
  match alGet r key with
  | some (JsValue.vbool b) => b
  | _ => d

/-- Read `record[key] as Record<string, StateType[]>` with a `?? {}`
fallback. -/
def getMemD (r : List (String × JsValue)) (key : String) :
    List (String × List StateType) :=
  match alGet r key with
  | some (JsValue.vmem m) => m
  | _ => []

/-- The variant of a gate, carrying the constructor-supplied private fields of
the corresponding subclass (`ClockGate.period/highDuration`,
`PulseGate.pulseDuration`, `RamGate/RomGate.dataWidth`).  Only the catalogue
subset exercised by the claims is modelled. -/
inductive GateKind where
  | toggle
  | clock (period : Nat) (highDuration : Nat)
  | pulse (pulseDuration : Nat)
  | led
  | keypad
  | dff
  | rom (dataWidth : Nat)
deriving DecidableEq, Repr

/-- A port of a gate (`GatePort` in `gates/Gate.ts`). -/
structure GatePort where
  state : StateType
  connectedWires : List String
deriving DecidableEq, Repr

/-- The mutable state of a `Gate` object (`gates/Gate.ts` base class fields
plus the variant tag). -/
structure Gate where
  id : String
  type : String
  delay : Nat
  kind : GateKind
  inputs : List GatePort
  outputs : List GatePort
  previousInputs : List StateType
  internalState : List (String × JsValue)
deriving DecidableEq, Repr

/-- The `Gate` base-class constructor: ports initialized to `UNKNOWN` with no
connected wires, `previousInputs` snapshotting the inputs. -/
def gateNew (id type : String) (kind : GateKind) (inputCount outputCount delay : Nat)
    (internal : List (String × JsValue)) : Gate :=
  { id := id, type := type, delay := delay, kind := kind,
    inputs := List.replicate inputCount { state := StateType.UNKNOWN, connectedWires := [] },
    outputs := List.replicate outputCount { state := StateType.UNKNOWN, connectedWires := [] },
    previousInputs := List.replicate inputCount StateType.UNKNOWN,
    internalState := internal }

/-- Constructor of `ToggleGate` (`gates/BasicGates.ts`). -/
def toggleGateNew (id : String) : Gate :=
  gateNew id "TOGGLE" GateKind.toggle 0 1 0 [("value", JsValue.vstate StateType.ZERO)]

/-- Constructor of `ClockGate`.  `highDuration = floor(period * dutyCycle)`;
every construction path in the engine uses the default `dutyCycle = 0.5`, so
`highDuration = period / 2`. -/
def clockGateNew (id : String) (period : Nat) : Gate :=
  gateNew id "CLOCK" (GateKind.clock period (period / 2)) 0 1 0
    [("phase", JsValue.vnat 0), ("value", JsValue.vstate StateType.ZERO)]

/-- Constructor of `PulseGate`. -/
def pulseGateNew (id : String) (pulseDuration : Nat) : Gate :=
  gateNew id "PULSE" (GateKind.pulse pulseDuration) 0 1 0
    [("active", JsValue.vbool false), ("endTime", JsValue.vnat 0)]

/-- Constructor of `LedGate`. -/
def ledGateNew (id : String) : Gate :=
  gateNew id "LED" GateKind.led 1 0 0 []

/-- Constructor of `KeypadGate`. -/
def keypadGateNew (id : String) : Gate :=
  gateNew id "KEYPAD" GateKind.keypad 0 4 0 [("value", JsValue.vnat 0)]

/-- Constructor of `DFlipFlop` (`gates/SequentialGates.ts`): 2 inputs
`(D, CLK)`, 2 outputs, delay 1, internal `q = ZERO`. -/
def dFlipFlopNew (id : String) : Gate :=
  gateNew id "D_FLIPFLOP" GateKind.dff 2 2 1 [("q", JsValue.vstate StateType.ZERO)]

/-- Constructor of `RomGate` (`gates/MemoryGates.ts`): 5 inputs
`(A0..A3, EN)`, `dataWidth` outputs; memory seeded from `params.memory`. -/
def romGateNew (id type : String) (dataWidth : Nat)
    (params : List (String × JsValue)) : Gate :=
  gateNew id type (GateKind.rom dataWidth) 5 dataWidth 1
    [("memory", (alGet params "memory").getD (JsValue.vmem []))]

/-- Update the state of the port at `index`, leaving its wire list alone; a
no-op when the index is out of range (the source's bounds guard). -/
def setPortState : List GatePort → Nat → StateType → List GatePort
  | [], _, _ => []
  | p :: rest, 0, s => { p with state := s } :: rest
  | p :: rest, n + 1, s => p :: setPortState rest n s

/-- Append a wire id to the port at `index` (`connectedWires.push`). -/
def pushWire : List GatePort → Nat → String → List GatePort
  | [], _, _ => []
  | p :: rest, 0, w => { p with connectedWires := p.connectedWires ++ [w] } :: rest
  | p :: rest, n + 1, w => p :: pushWire rest n w

/-- Remove the first occurrence of a wire id from the port at `index`
(`indexOf` + `splice`). -/
def removeWireId : List GatePort → Nat → String → List GatePort
  | [], _, _ => []
  | p :: rest, 0, w => { p with connectedWires := p.connectedWires.erase w } :: rest
  | p :: rest, n + 1, w => p :: removeWireId rest n w

/-- Method `getInputStates` of `gates/Gate.ts`. -/
def Gate.getInputStates (g : Gate) : List StateType := g.inputs.map (fun p => p.state)

/-- Method `getOutputStates` of `gates/Gate.ts`. -/
def Gate.getOutputStates (g : Gate) : List StateType := g.outputs.map (fun p => p.state)

/-- Method `setInput` of `gates/Gate.ts`. -/
def Gate.setInput (g : Gate) (index : Nat) (s : StateType) : Gate :=
  { g with inputs := setPortState g.inputs index s }

/-- Method `setOutput` of `gates/Gate.ts`. -/
def Gate.setOutput (g : Gate) (index : Nat) (s : StateType) : Gate :=
  { g with outputs := setPortState g.outputs index s }

/-- Method `connectInputWire` of `gates/Gate.ts`. -/
def Gate.connectInputWire (g : Gate) (portIndex : Nat) (wireId : String) : Gate :=
  { g with inputs := pushWire g.inputs portIndex wireId }

/-- Method `connectOutputWire` of `gates/Gate.ts`. -/
def Gate.connectOutputWire (g : Gate) (portIndex : Nat) (wireId : String) : Gate :=
  { g with outputs := pushWire g.outputs portIndex wireId }

/-- Method `disconnectInputWire` of `gates/Gate.ts`. -/
def Gate.disconnectInputWire (g : Gate) (portIndex : Nat) (wireId : String) : Gate :=
  { g with inputs := removeWireId g.inputs portIndex wireId }

/-- Method `disconnectOutputWire` of `gates/Gate.ts`. -/
def Gate.disconnectOutputWire (g : Gate) (portIndex : Nat) (wireId : String) : Gate :=
  { g with outputs := removeWireId g.outputs portIndex wireId }

/-- Method `isRisingEdge` of `gates/Gate.ts`: strict `ZERO → ONE` transition
between the previous snapshot and the current input. -/
def Gate.isRisingEdge (g : Gate) (inputIndex : Nat) : Bool :=
  decide (g.previousInputs[inputIndex]? = some StateType.ZERO) &&
    decide ((g.inputs[inputIndex]?).map (fun p => p.state) = some StateType.ONE)

/-- Method `updatePreviousInputs` of `gates/Gate.ts`. -/
def Gate.updatePreviousInputs (g : Gate) : Gate :=
  { g with previousInputs := g.inputs.map (fun p => p.state) }

/-- Method `setInternalState` of `gates/Gate.ts`: replaces the whole record. -/
def Gate.setInternalState (g : Gate) (st : List (String × JsValue)) : Gate :=
  { g with internalState := st }

/-- The `onReset` overrides of the gate subclasses.  Note `RomGate.onReset`
reads `this.internalState['memory']` — which the base-class `reset` has
already replaced by `{}` before calling `onReset` (see `Gate.reset`). -/
def gateOnReset (g : Gate) : Gate :=
  match g.kind with
  | GateKind.toggle =>
    { g with internalState := [("value", JsValue.vstate StateType.ZERO)] }
  | GateKind.clock _ _ =>
    { g with internalState := [("phase", JsValue.vnat 0), ("value", JsValue.vstate StateType.ZERO)] }
  | GateKind.pulse _ =>
    { g with internalState := [("active", JsValue.vbool false), ("endTime", JsValue.vnat 0)] }
  | GateKind.led => g
  | GateKind.keypad =>
    { g with internalState := [("value", JsValue.vnat 0)] }
  | GateKind.dff =>
    { g with internalState := [("q", JsValue.vstate StateType.ZERO)] }
  | GateKind.rom _ =>
    { g with internalState :=
        [("memory", (alGet g.internalState "memory").getD (JsValue.vmem []))] }

/-- Method `reset` of `gates/Gate.ts`: clear the ports, re-snapshot
`previousInputs`, set `internalState = {}`, then call `onReset`. -/
def Gate.reset (g : Gate) : Gate :=
  gateOnReset
    { g with
      inputs := g.inputs.map (fun p => { p with state := StateType.UNKNOWN }),
      outputs := g.outputs.map (fun p => { p with state := StateType.UNKNOWN }),
      previousInputs := g.inputs.map (fun _ => StateType.UNKNOWN),
      internalState := [] }

/-- The private `invertState` helper of the flip-flop classes
(`gates/SequentialGates.ts`): `ZERO ↔ ONE`, everything else unchanged. -/
def invertState (s : StateType) : StateType :=
  match s with
  | StateType.ZERO => StateType.ONE
  | StateType.ONE => StateType.ZERO
  | _ => s

/-- Method `DFlipFlop.evaluate`: on a rising CLK edge (input 1) capture D
(input 0) into `q` per the validity rules, then output `(q, invertState q)`. -/
def dffEvaluate (g : Gate) : Gate × List StateType :=
  let st :=
    if g.isRisingEdge 1 then
      let d := ((g.inputs[0]?).map (fun p => p.state)).getD StateType.UNKNOWN
      if d = StateType.ZERO ∨ d = StateType.ONE then
        alSet g.internalState "q" (JsValue.vstate d)
      else if d = StateType.UNKNOWN ∨ d = StateType.HI_Z then
        alSet g.internalState "q" (JsValue.vstate StateType.UNKNOWN)
      else
        -- the remaining case of the source's else-if chain: d = CONFLICT
        alSet g.internalState "q" (JsValue.vstate StateType.CONFLICT)
    else g.internalState
  let q := getStateD st "q" StateType.UNKNOWN
  let qNot := invertState q
  let g := { g with internalState := st }
  (((g.setOutput 0 q).setOutput 1 qNot), [q, qNot])

/-- Helper `isValid` of `gates/MemoryGates.ts`. -/
def isValid (s : StateType) : Bool :=
  decide (s = StateType.ZERO) || decide (s = StateType.ONE)

/-- Helper `bitsToIndex` of `gates/MemoryGates.ts`: LSB-first binary decode,
`-1` when any bit is invalid. -/
def bitsToIndex (inputs : List StateType) : Int :=
  if inputs.all isValid then
    Int.ofNat ((List.range inputs.length).foldl
      (fun val i => if inputs[i]? = some StateType.ONE then val ||| (1 <<< i) else val) 0)
  else -1

/-- Method `RomGate.evaluate`: asynchronous read of the addressed word when
enabled and the address is valid; `HI_Z` outputs when disabled; `UNKNOWN`
otherwise.  Missing cells read as `ZERO`. -/
def romEvaluate (g : Gate) (dataWidth : Nat) : Gate × List StateType :=
  let en := ((g.inputs[4]?).map (fun p => p.state)).getD StateType.UNKNOWN
  let memory := getMemD g.internalState "memory"
  let addrBits := (List.range 4).map
    (fun i => ((g.inputs[i]?).map (fun p => p.state)).getD StateType.UNKNOWN)
  let addr := bitsToIndex addrBits
  let outputs :=
    if en = StateType.ONE ∧ 0 ≤ addr then
      let stored := alGet memory (toString addr)
      (List.range dataWidth).map
        (fun i => ((stored.bind (fun l => l[i]?)).getD StateType.ZERO))
    else if en = StateType.ZERO then
      List.replicate dataWidth StateType.HI_Z
    else
      List.replicate dataWidth StateType.UNKNOWN
  ((List.range dataWidth).foldl
    (fun g2 i => g2.setOutput i ((outputs[i]?).getD StateType.UNKNOWN)) g, outputs)

/-- Method `evaluate` of the modelled gate subclasses, returning the mutated
gate and `result.outputs` (the `delay` component is the gate's own `delay`
and is unused by the engine). -/
def Gate.evaluate (g : Gate) : Gate × List StateType :=
  match g.kind with
  | GateKind.toggle =>
    let value := getStateD g.internalState "value" StateType.ZERO
    (g.setOutput 0 value, [value])
  | GateKind.clock _ _ =>
    let value := getStateD g.internalState "value" StateType.ZERO
    (g.setOutput 0 value, [value])
  | GateKind.pulse _ =>
    let active := getBoolD g.internalState "active" false
    let value := if active then StateType.ONE else StateType.ZERO
    (g.setOutput 0 value, [value])
  | GateKind.led => (g, [])
  | GateKind.keypad =>
    let value := getNatD g.internalState "value" 0
    let outputs := (List.range 4).map
      (fun i => if (value >>> i) % 2 = 1 then StateType.ONE else StateType.ZERO)
    ((List.range 4).foldl
      (fun g2 i => g2.setOutput i ((outputs[i]?).getD StateType.UNKNOWN)) g, outputs)
  | GateKind.dff => dffEvaluate g
  | GateKind.rom dataWidth => romEvaluate g dataWidth

/-- Method `ToggleGate.toggle`. -/
def toggleToggle (g : Gate) : Gate :=
  let current := getStateD g.internalState "value" StateType.ZERO
  let newValue := if current = StateType.ZERO then StateType.ONE else StateType.ZERO
  { g with internalState := alSet g.internalState "value" (JsValue.vstate newValue) }

/-- Method `ToggleGate.setValue`. -/
def toggleSetValue (g : Gate) (value : StateType) : Gate :=
  { g with internalState := alSet g.internalState "value" (JsValue.vstate value) }

/-- Method `ClockGate.tick`: recompute the phase and output value from the
current time, store them, and return the new value.  (For `period = 0` the
source computes a `NaN` phase and likewise outputs `ZERO`; the stored phase is
never read.) -/
def clockTick (g : Gate) (period highDuration : Nat) (currentTime : Nat) :
    Gate × StateType :=
  let phase := currentTime % period
  let newValue := if phase < highDuration then StateType.ONE else StateType.ZERO
  let st := alSet (alSet g.internalState "value" (JsValue.vstate newValue)) "phase" (JsValue.vnat phase)
  ({ g with internalState := st }, newValue)

/-- Method `PulseGate.trigger`. -/
def pulseTrigger (g : Gate) (pulseDuration : Nat) (currentTime : Nat) : Gate :=
  let st := alSet (alSet g.internalState "active" (JsValue.vbool true)) "endTime" (JsValue.vnat (currentTime + pulseDuration))
  { g with internalState := st }

/-- Method `PulseGate.checkPulseEnd`: disarm and report `true` when armed and
the end time has been reached. -/
def pulseCheckEnd (g : Gate) (currentTime : Nat) : Gate × Bool :=
  if getBoolD g.internalState "active" false ∧
      getNatD g.internalState "endTime" 0 ≤ currentTime then
    ({ g with internalState := alSet g.internalState "active" (JsValue.vbool false) }, true)
  else (g, false)

/-- A gate descriptor (`GateState` in `types/state.ts`). -/
structure GateState where
  id : String
  type : String
  inputStates : List StateType
  outputStates : List StateType
  internalState : Option (List (String × JsValue))
deriving DecidableEq, Repr

/-- Factory `createGate` of `gates/BasicGates.ts`, restricted to the modelled
catalogue subset; unmodelled and unknown types yield `none` (the source
throws on unknown types; the claims construct only modelled types). -/
def createGate (type id : String) (params : List (String × JsValue)) : Option Gate :=
  if type = "TOGGLE" then some (toggleGateNew id)
  else if type = "CLOCK" then some (clockGateNew id (getNatD params "period" 10))
  else if type = "PULSE" then some (pulseGateNew id (getNatD params "duration" 1))
  else if type = "LED" then some (ledGateNew id)
  else if type = "KEYPAD" then some (keypadGateNew id)
  else none

/-- Method `SimulationEngine.createGateFromState`: dispatch on the type lists,
construct via the factories (ROM receiving `params := internalState`), then
restore `internalState` when the descriptor provides one. -/
def createGateFromState (gs : GateState) : Option Gate :=
  let g :=
    if gs.type = "D_FLIPFLOP" then some (dFlipFlopNew gs.id)
    else if gs.type = "ROM_16X4" then
      some (romGateNew gs.id "ROM_16X4" 4 (gs.internalState.getD []))
    else if gs.type = "ROM_16X8" then
      some (romGateNew gs.id "ROM_16X8" 8 (gs.internalState.getD []))
    else createGate gs.type gs.id (gs.internalState.getD [])
  match g with
  | none => none
  | some g =>
    match gs.internalState with
    | some st => some (g.setInternalState st)
    | none => some g

/-- The stored wire record of `SimulationEngine.wires`. -/
structure Wire where
  sourceGateId : String
  sourcePortIndex : Nat
  targetGateId : String
  targetPortIndex : Nat
  state : StateType
deriving DecidableEq, Repr

/-- A wire descriptor (`WireState` in `types/state.ts`). -/
structure WireState where
  id : String
  state : StateType
  sourceGateId : String
  sourcePortIndex : Nat
  targetGateId : String
  targetPortIndex : Nat
deriving DecidableEq, Repr

/-- The state of a `SimulationEngine` (`core/SimulationEngine.ts`).  The
`clockIds`/`pulseIds` lists model the `clockGates`/`pulseGates` arrays of gate
references: the arrays always hold exactly the registered gates, addressed
here by id. -/
structure Engine where
  gates : List (String × Gate)
  wires : List (String × Wire)
  eventQueue : EventQueue
  currentTime : Nat
  running : Bool
  paused : Bool
  maxEventsPerStep : Nat
  maxTimePerStep : Nat
  clockIds : List String
  pulseIds : List String
deriving DecidableEq, Repr

/-- `new SimulationEngine()` with the default configuration. -/
def Engine.new : Engine :=
  { gates := [], wires := [], eventQueue := EventQueue.new, currentTime := 0,
    running := false, paused := false, maxEventsPerStep := 10000,
    maxTimePerStep := 1000, clockIds := [], pulseIds := [] }

/-- Method `scheduleGateEvaluation`: push a whole-gate event
(`portIndex = -1`, `newState = UNKNOWN`). -/
def scheduleGateEvaluation (s : Engine) (gateId : String) (time : Nat) : Engine :=
  { s with eventQueue := s.eventQueue.push time gateId (-1) StateType.UNKNOWN }

/-- Method `propagateWireState`: update the wire's cached state (no-op when
unchanged), re-resolve the target port over all wires reaching it, and
schedule the target gate at `currentTime + 1`. -/
def propagateWireState (s : Engine) (wireId : String) (newState : StateType) : Engine :=
  match alGet s.wires wireId with
  | none => s
  | some wire =>
    if wire.state = newState then s
    else
      let s := { s with wires := alSet s.wires wireId { wire with state := newState } }
      match alGet s.gates wire.targetGateId with
      | none => s
      | some targetGate =>
        let inputStates := (s.wires.filter (fun p =>
          decide (p.2.targetGateId = wire.targetGateId) &&
            decide (p.2.targetPortIndex = wire.targetPortIndex))).map (fun p => p.2.state)
        let resolvedState := resolveWireState inputStates
        let tg := targetGate.setInput wire.targetPortIndex resolvedState
        let s := { s with gates := alSet s.gates wire.targetGateId tg }
        scheduleGateEvaluation s wire.targetGateId (s.currentTime + 1)

/-- Method `addWire`: create the record with an `UNKNOWN` cached state,
register it at both endpoints, then propagate the source's current output
onto the new wire. -/
def addWire (s : Engine) (ws : WireState) : Engine :=
  let rec0 : Wire :=
    { sourceGateId := ws.sourceGateId, sourcePortIndex := ws.sourcePortIndex,
      targetGateId := ws.targetGateId, targetPortIndex := ws.targetPortIndex,
      state := StateType.UNKNOWN }
  let s := { s with wires := alSet s.wires ws.id rec0 }
  let hasSource := (alGet s.gates ws.sourceGateId).isSome
  let hasTarget := (alGet s.gates ws.targetGateId).isSome
  let s :=
    match alGet s.gates ws.sourceGateId with
    | some g => { s with gates := alSet s.gates ws.sourceGateId (g.connectOutputWire ws.sourcePortIndex ws.id) }
    | none => s
  let s :=
    match alGet s.gates ws.targetGateId with
    | some g => { s with gates := alSet s.gates ws.targetGateId (g.connectInputWire ws.targetPortIndex ws.id) }
    | none => s
  if hasSource ∧ hasTarget then
    match alGet s.gates ws.sourceGateId with
    | some sourceGate =>
      let outputState := ((sourceGate.getOutputStates)[ws.sourcePortIndex]?).getD StateType.UNKNOWN
      propagateWireState s ws.id outputState
    | none => s
  else s

/-- Method `removeWire`: unregister the wire at both endpoints, schedule a
re-evaluation of the target at `currentTime + 1`, and drop the record. -/
def removeWire (s : Engine) (wireId : String) : Engine :=
  match alGet s.wires wireId with
  | none => s
  | some wire =>
    let s :=
      match alGet s.gates wire.sourceGateId with
      | some g => { s with gates := alSet s.gates wire.sourceGateId (g.disconnectOutputWire wire.sourcePortIndex wireId) }
      | none => s
    let s :=
      match alGet s.gates wire.targetGateId with
      | some g =>
        let s := { s with gates := alSet s.gates wire.targetGateId (g.disconnectInputWire wire.targetPortIndex wireId) }
        scheduleGateEvaluation s wire.targetGateId (s.currentTime + 1)
      | none => s
    { s with wires := alDelete s.wires wireId }

/-- Method `addGate`: construct from the descriptor, register (tracking clocks
and pulses), and schedule an evaluation at the current time.  `none` models
the construction throw on an unknown type. -/
def addGate (s : Engine) (gs : GateState) : Option Engine :=
  match createGateFromState gs with
  | none => none
  | some gate =>
    let s := { s with gates := alSet s.gates gs.id gate }
    let s :=
      match gate.kind with
      | GateKind.clock _ _ => { s with clockIds := s.clockIds ++ [gs.id] }
      | GateKind.pulse _ => { s with pulseIds := s.pulseIds ++ [gs.id] }
      | _ => s
    some (scheduleGateEvaluation s gate.id s.currentTime)

/-- The `instanceof` chain at the top of method `removeGate`: splice the gate
out of the clock or pulse registration array. -/
def unregisterClockPulse (s : Engine) (gate : Gate) (gateId : String) : Engine :=
  match gate.kind with
  | GateKind.clock _ _ => { s with clockIds := s.clockIds.erase gateId }
  | GateKind.pulse _ => { s with pulseIds := s.pulseIds.erase gateId }
  | _ => s

/-- Method `removeGate` proper: after unregistering, remove every incident
wire via `removeWire`, purge the gate's pending events, and drop the gate. -/
def removeGate (s : Engine) (gateId : String) : Engine :=
  match alGet s.gates gateId with
  | none => s
  | some gate =>
    let s := unregisterClockPulse s gate gateId
    let wiresToRemove := (s.wires.filter (fun p =>
      decide (p.2.sourceGateId = gateId) || decide (p.2.targetGateId = gateId))).map (fun p => p.1)
    let s := wiresToRemove.foldl removeWire s
    let s := { s with eventQueue := s.eventQueue.removeEventsForGate gateId }
    { s with gates := alDelete s.gates gateId }

/-- Method `toggleInput`: only a `ToggleGate` is toggled and re-scheduled. -/
def toggleInput (s : Engine) (gateId : String) : Engine :=
  match alGet s.gates gateId with
  | some gate =>
    match gate.kind with
    | GateKind.toggle =>
      let s := { s with gates := alSet s.gates gateId (toggleToggle gate) }
      scheduleGateEvaluation s gateId s.currentTime
    | _ => s
  | none => s

/-- Method `setInputValue`: only a `ToggleGate` is set and re-scheduled. -/
def setInputValue (s : Engine) (gateId : String) (value : StateType) : Engine :=
  match alGet s.gates gateId with
  | some gate =>
    match gate.kind with
    | GateKind.toggle =>
      let s := { s with gates := alSet s.gates gateId (toggleSetValue gate value) }
      scheduleGateEvaluation s gateId s.currentTime
    | _ => s
  | none => s

/-- Method `triggerPulse`: only a `PulseGate` is armed and re-scheduled. -/
def triggerPulse (s : Engine) (gateId : String) : Engine :=
  match alGet s.gates gateId with
  | some gate =>
    match gate.kind with
    | GateKind.pulse pulseDuration =>
      let s := { s with gates := alSet s.gates gateId (pulseTrigger gate pulseDuration s.currentTime) }
      scheduleGateEvaluation s gateId s.currentTime
    | _ => s
  | none => s

/-- Method `initialize` of `core/SimulationEngine.ts`: clear all state,
construct and register every gate (tracking clocks and pulses), create the
wire records and both endpoint registrations, then schedule an initial
evaluation of every gate at time 0.  `none` models the construction throw on
an unknown type. -/
def initEngine (s : Engine) (gateStates : List GateState)
    (wireStates : List WireState) : Option Engine :=
  let s := { s with gates := [], wires := [], eventQueue := s.eventQueue.clear, currentTime := 0, clockIds := [], pulseIds := [] }
  let created : Option Engine := gateStates.foldl (fun acc gs =>
    match acc with
    | none => none
    | some s =>
      match createGateFromState gs with
      | none => none
      | some gate =>
        let s := { s with gates := alSet s.gates gs.id gate }
        match gate.kind with
        | GateKind.clock _ _ => some { s with clockIds := s.clockIds ++ [gs.id] }
        | GateKind.pulse _ => some { s with pulseIds := s.pulseIds ++ [gs.id] }
        | _ => some s) (some s)
  match created with
  | none => none
  | some s =>
    let s := wireStates.foldl (fun s ws =>
      let w : Wire :=
        { sourceGateId := ws.sourceGateId, sourcePortIndex := ws.sourcePortIndex,
          targetGateId := ws.targetGateId, targetPortIndex := ws.targetPortIndex,
          state := StateType.UNKNOWN }
      let s := { s with wires := alSet s.wires ws.id w }
      let s :=
        match alGet s.gates ws.sourceGateId with
        | some g => { s with gates := alSet s.gates ws.sourceGateId (g.connectOutputWire ws.sourcePortIndex ws.id) }
        | none => s
      match alGet s.gates ws.targetGateId with
      | some g => { s with gates := alSet s.gates ws.targetGateId (g.connectInputWire ws.targetPortIndex ws.id) }
      | none => s) s
    some (s.gates.foldl (fun s2 p => scheduleGateEvaluation s2 p.2.id 0) s)

/-- The clock-update loop at the top of `processTimeStep`: tick every
registered clock and schedule those whose output value changed. -/
def clocksPhase (s : Engine) : Engine :=
  s.clockIds.foldl (fun s cid =>
    match alGet s.gates cid with
    | some g =>
      match g.kind with
      | GateKind.clock period highDuration =>
        let oldState := ((g.getOutputStates)[0]?).getD StateType.UNKNOWN
        let tick := clockTick g period highDuration s.currentTime
        let s := { s with gates := alSet s.gates cid tick.1 }
        if oldState = tick.2 then s else scheduleGateEvaluation s cid s.currentTime
      | _ => s
    | none => s) s

/-- The pulse-check loop of `processTimeStep`: disarm expired pulses and
schedule them for re-evaluation. -/
def pulsesPhase (s : Engine) : Engine :=
  s.pulseIds.foldl (fun s pid =>
    match alGet s.gates pid with
    | some g =>
      match g.kind with
      | GateKind.pulse _ =>
        let chk := pulseCheckEnd g s.currentTime
        let s := { s with gates := alSet s.gates pid chk.1 }
        if chk.2 then scheduleGateEvaluation s pid s.currentTime else s
      | _ => s
    | none => s) s

/-- The output-propagation loop of the event processing body: for every output
index whose state changed, push the new state onto every wire driven by that
`(gate, output)` pair, in wire-map insertion order.  (The source also collects
a `StateUpdate` list for observers; it does not affect engine state and is not
modelled.) -/
def propagateOutputs (s : Engine) (gateId : String)
    (previousOutputs newOutputs : List StateType) : Engine :=
  (List.range newOutputs.length).foldl (fun s i =>
    let oldState := (previousOutputs[i]?).getD StateType.UNKNOWN
    let newState := (newOutputs[i]?).getD StateType.UNKNOWN
    if oldState = newState then s
    else
      ((s.wires.filter (fun p =>
          decide (p.2.sourceGateId = gateId) && decide (p.2.sourcePortIndex = i))).map
        (fun p => p.1)).foldl
        (fun s2 wid => propagateWireState s2 wid newState) s) s

/-- The `while` event loop of `processTimeStep`.  `fuel` is the remaining
budget `maxEventsPerStep - eventsProcessed`; each iteration pops one event, so
the budget decreases exactly as `eventsProcessed` increases.  Events for
removed gates are skipped. -/
def eventLoop : Nat → Engine → Engine
  | 0, s => s
  | fuel + 1, s =>
    match s.eventQueue.peek with
    | none => s
    | some event =>
      if s.currentTime < event.time then s
      else
        let s := { s with eventQueue := (s.eventQueue.pop).2 }
        match alGet s.gates event.gateId with
        | none => eventLoop fuel s
        | some gate =>
          let previousOutputs := gate.getOutputStates
          let ev := gate.evaluate
          let gate2 := ev.1.updatePreviousInputs
          let s := { s with gates := alSet s.gates event.gateId gate2 }
          let s := propagateOutputs s gate.id previousOutputs ev.2
          eventLoop fuel s

/-- The time-advance step at the end of `processTimeStep`: jump to the next
event's time but always advance by at least one tick. -/
def advanceTime (s : Engine) : Engine :=
  match s.eventQueue.peek with
  | some nextEvent => { s with currentTime := max (s.currentTime + 1) nextEvent.time }
  | none => { s with currentTime := s.currentTime + 1 }

/-- Method `processTimeStep` of `core/SimulationEngine.ts`. -/
def processTimeStep (s : Engine) : Engine :=
  advanceTime (eventLoop s.maxEventsPerStep (pulsesPhase (clocksPhase s)))

/-- The `for` loop of method `step(count)`: run `processTimeStep` up to
`count` times, stopping early as soon as the event queue is empty. -/
def stepRun : Nat → Engine → Engine
  | 0, s => s
  | k + 1, s =>
    let s2 := processTimeStep s
    if s2.eventQueue.isEmpty then s2 else stepRun k s2

/-- Method `step` of `core/SimulationEngine.ts` (ignoring the returned
`StateUpdate` list, which does not affect engine state). -/
def Engine.step (s : Engine) (count : Nat) : Engine :=
  stepRun count s

/-- Method `run`. -/
def Engine.run (s : Engine) : Engine := { s with running := true, paused := false }

/-- Method `pause`. -/
def Engine.pause (s : Engine) : Engine := { s with paused := true }

/-- Method `reset` of `core/SimulationEngine.ts`: zero the time, clear the
queue, reset every gate and wire, and re-schedule an initial evaluation of
every gate at time 0. -/
def Engine.reset (s : Engine) : Engine :=
  let s := { s with currentTime := 0, eventQueue := s.eventQueue.clear }
  let s := { s with gates := s.gates.map (fun p : String × Gate => (p.1, p.2.reset)) }
  let s := { s with wires := s.wires.map (fun p : String × Wire => (p.1, { p.2 with state := StateType.UNKNOWN })) }
  s.gates.foldl (fun s2 p => scheduleGateEvaluation s2 p.2.id 0) s

/-- Method `getSnapshot`: `(time, gates, wires)` descriptor lists in map
insertion order.  `getInternalState` returns a copy of the record, so the
descriptor always carries one. -/
def Engine.getSnapshot (s : Engine) : Nat × List GateState × List WireState :=
  (s.currentTime,
   s.gates.map (fun p : String × Gate =>
     { id := p.1, type := p.2.type, inputStates := p.2.getInputStates,
       outputStates := p.2.getOutputStates, internalState := some p.2.internalState }),
   s.wires.map (fun p : String × Wire =>
     { id := p.1, state := p.2.state, sourceGateId := p.2.sourceGateId,
       sourcePortIndex := p.2.sourcePortIndex, targetGateId := p.2.targetGateId,
       targetPortIndex := p.2.targetPortIndex }))

/-- The `WorkerMessage` union of `types/state.ts` — every message the editor
can post to the simulation worker, including `setKeypadValue` and
`setMemoryData`. -/
inductive WorkerMsg where
  | init (gates : List GateState) (wires : List WireState)
  | run
  | pauseMsg
  | stepMsg (count : Option Nat)
  | resetMsg
  | toggleMsg (gateId : String)
  | triggerPulseMsg (gateId : String)
  | setInput (gateId : String) (value : StateType)
  | setSpeed (msPerTick : Nat)
  | addGateMsg (gate : GateState)
  | removeGateMsg (gateId : String)
  | addWireMsg (wire : WireState)
  | removeWireMsg (wireId : String)
  | getState
  | setKeypadValue (gateId : String) (value : Nat)
  | setMemoryData (gateId : String) (memory : List (String × List Nat))
deriving DecidableEq, Repr

/-- The `WorkerResponse` union of `types/state.ts`. -/
inductive WorkerResponse where
  | ready
  | stateUpdate (time : Nat) (gates : List GateState) (wires : List WireState)
  | errorResp (message : String)
deriving DecidableEq, Repr

/-- The worker's module-level mutable state (`simulationWorker.ts`): the
engine slot and the pacing rate.  The wall-clock loop (`setTimeout`,
accumulator) is real-time behaviour outside the embedding; none of its
handlers mutate the engine synchronously. -/
structure WorkerState where
  engine : Option Engine
  msPerTick : Nat
deriving DecidableEq, Repr

/-- Module initialization of `simulationWorker.ts`. -/
def workerInit : WorkerState := { engine := none, msPerTick := 16 }

/-- Function `sendStateUpdate` of `simulationWorker.ts`: emit a snapshot, or
nothing when no engine exists. -/
def sendStateUpdate (ws : WorkerState) : List WorkerResponse :=
  match ws.engine with
  | none => []
  | some e =>
    let snap := e.getSnapshot
    [WorkerResponse.stateUpdate snap.1 snap.2.1 snap.2.2]

/-- The `self.onmessage` dispatcher of `simulationWorker.ts`.  The `switch`
has no case for `setKeypadValue` or `setMemoryData` (and `SimulationEngine`
has no corresponding methods), so both fall through to the `default` branch,
which emits an `error` response and changes nothing. -/
def handleMessage (ws : WorkerState) (msg : WorkerMsg) : WorkerState × List WorkerResponse :=
  match msg with
  | WorkerMsg.init gates wires =>
    let ws := { ws with engine := ws.engine.map Engine.pause }
    match initEngine Engine.new gates wires with
    | some e =>
      let ws := { ws with engine := some e }
      (ws, sendStateUpdate ws ++ [WorkerResponse.ready])
    | none =>
      -- an unknown gate type makes `initialize` throw out of the handler,
      -- leaving the freshly constructed engine partially initialized and no
      -- response sent; no claim exercises this path
      ({ ws with engine := some Engine.new }, [])
  | WorkerMsg.run =>
    match ws.engine with
    | some e => ({ ws with engine := some e.run }, [])
    | none => (ws, [])
  | WorkerMsg.pauseMsg =>
    let ws := { ws with engine := ws.engine.map Engine.pause }
    (ws, sendStateUpdate ws)
  | WorkerMsg.stepMsg count =>
    match ws.engine with
    | some e =>
      let ws := { ws with engine := some (e.step (count.getD 1)) }
      (ws, sendStateUpdate ws)
    | none => (ws, [])
  | WorkerMsg.resetMsg =>
    let ws := { ws with engine := ws.engine.map Engine.pause }
    match ws.engine with
    | some e =>
      let ws := { ws with engine := some e.reset }
      (ws, sendStateUpdate ws)
    | none => (ws, [])
  | WorkerMsg.toggleMsg gateId =>
    match ws.engine with
    | some e =>
      let ws := { ws with engine := some ((toggleInput e gateId).step 1) }
      (ws, sendStateUpdate ws)
    | none => (ws, [])
  | WorkerMsg.triggerPulseMsg gateId =>
    match ws.engine with
    | some e =>
      let ws := { ws with engine := some ((triggerPulse e gateId).step 1) }
      (ws, sendStateUpdate ws)
    | none => (ws, [])
  | WorkerMsg.setInput gateId value =>
    match ws.engine with
    | some e =>
      let ws := { ws with engine := some ((setInputValue e gateId value).step 1) }
      (ws, sendStateUpdate ws)
    | none => (ws, [])
  | WorkerMsg.setSpeed ms =>
    ({ ws with msPerTick := max 1 (min 1000 ms) }, [])
  | WorkerMsg.addGateMsg gate =>
    match ws.engine with
    | some e =>
      match addGate e gate with
      | some e2 =>
        let ws := { ws with engine := some e2 }
        (ws, sendStateUpdate ws)
      | none =>
        -- construction throw escapes the handler; no claim exercises this
        (ws, [])
    | none => (ws, [])
  | WorkerMsg.removeGateMsg gateId =>
    match ws.engine with
    | some e =>
      let ws := { ws with engine := some (removeGate e gateId) }
      (ws, sendStateUpdate ws)
    | none => (ws, [])
  | WorkerMsg.addWireMsg wire =>
    match ws.engine with
    | some e =>
      let ws := { ws with engine := some (addWire e wire) }
      (ws, sendStateUpdate ws)
    | none => (ws, [])
  | WorkerMsg.removeWireMsg wireId =>
    match ws.engine with
    | some e =>
      let ws := { ws with engine := some (removeWire e wireId) }
      (ws, sendStateUpdate ws)
    | none => (ws, [])
  | WorkerMsg.getState => (ws, sendStateUpdate ws)
  | WorkerMsg.setKeypadValue _ _ =>
    (ws, [WorkerResponse.errorResp "Unknown message type"])
  | WorkerMsg.setMemoryData _ _ =>
    (ws, [WorkerResponse.errorResp "Unknown message type"])

/-- C10: `toggleInput` and `setInputValue` on a gate id that does not refer to
a `ToggleGate`, and `triggerPulse` on one that does not refer to a
`PulseGate` — including ids with no gate at all — leave the engine state
completely unchanged: no internal state change, no scheduled event, and no
error. -/
theorem stimulus_wrong_target_noop (s : Engine) (gateId : String) (value : StateType) :
    ((∀ g, alGet s.gates gateId = some g → g.kind ≠ GateKind.toggle) →
      toggleInput s gateId = s ∧ setInputValue s gateId value = s) ∧
    ((∀ g, alGet s.gates gateId = some g → ∀ d, g.kind ≠ GateKind.pulse d) →
      triggerPulse s gateId = s) := by
  constructor
  · intro h
    constructor
    · unfold toggleInput
      cases hga : alGet s.gates gateId with
      | none => rfl
      | some g =>
        cases hkind : g.kind
        case toggle => exact absurd hkind (h g hga)
        all_goals simp [hkind]
    · unfold setInputValue
      cases hga : alGet s.gates gateId with
      | none => rfl
      | some g =>
        cases hkind : g.kind
        case toggle => exact absurd hkind (h g hga)
        all_goals simp [hkind]
  · intro h
    unfold triggerPulse
    cases hga : alGet s.gates gateId with
    | none => rfl
    | some g =>
      cases hkind : g.kind
      case pulse d => exact absurd hkind (h g hga d)
      all_goals simp [hkind]

/-- Witness for C10: both stimulus families are no-ops on an engine holding
only an LED gate. -/
theorem stimulus_wrong_target_noop_witness :
    (toggleInput { Engine.new with gates := [("l", ledGateNew "l")] } "l" =
      { Engine.new with gates := [("l", ledGateNew "l")] } ∧
     setInputValue { Engine.new with gates := [("l", ledGateNew "l")] } "l" StateType.ONE =
      { Engine.new with gates := [("l", ledGateNew "l")] }) ∧
    triggerPulse { Engine.new with gates := [("l", ledGateNew "l")] } "l" =
      { Engine.new with gates := [("l", ledGateNew "l")] } :=
  ⟨(stimulus_wrong_target_noop _ "l" StateType.ONE).1 (by
      intro g hg
      simp [alGet, Engine.new, ledGateNew, gateNew] at hg
      rw [← hg]
      decide),
   (stimulus_wrong_target_noop _ "l" StateType.ONE).2 (by
      intro g hg d
      simp [alGet, Engine.new, ledGateNew, gateNew] at hg
      rw [← hg]
      simp [ledGateNew, gateNew])⟩

lemma foldl_currentTime {β : Type} (f : Engine → β → Engine)
    (hf : ∀ s b, (f s b).currentTime = s.currentTime) :
    ∀ (l : List β) (s : Engine), (l.foldl f s).currentTime = s.currentTime := by
  intro l
  induction l with
  | nil => intro s; rfl
  | cons b rest ih => intro s; rw [List.foldl_cons, ih, hf]

lemma scheduleGateEvaluation_time (s : Engine) (g : String) (t : Nat) :
    (scheduleGateEvaluation s g t).currentTime = s.currentTime := rfl

lemma propagateWireState_time (s : Engine) (w : String) (st : StateType) :
    (propagateWireState s w st).currentTime = s.currentTime := by
  unfold propagateWireState
  split
  · rfl
  · split
    · rfl
    · dsimp only
      split
      · rfl
      · rfl

lemma propagateOutputs_time (s : Engine) (gid : String) (po no : List StateType) :
    (propagateOutputs s gid po no).currentTime = s.currentTime := by
  unfold propagateOutputs
  apply foldl_currentTime
  intro s2 i
  dsimp only
  split
  · rfl
  · exact foldl_currentTime _ (fun s3 wid => propagateWireState_time s3 wid _) _ s2

lemma clocksPhase_time (s : Engine) : (clocksPhase s).currentTime = s.currentTime := by
  unfold clocksPhase
  apply foldl_currentTime
  intro s2 cid
  split
  · split
    · dsimp only
      split
      · rfl
      · rfl
    all_goals rfl
  · rfl

lemma pulsesPhase_time (s : Engine) : (pulsesPhase s).currentTime = s.currentTime := by
  unfold pulsesPhase
  apply foldl_currentTime
  intro s2 pid
  split
  · split
    · dsimp only
      split
      · rfl
      · rfl
    all_goals rfl
  · rfl

lemma eventLoop_time : ∀ (fuel : Nat) (s : Engine),
    (eventLoop fuel s).currentTime = s.currentTime := by
  intro fuel
  induction fuel with
  | zero => intro s; rfl
  | succ n ih =>
    intro s
    rw [eventLoop]
    split
    · rfl
    · split
      · rfl
      · dsimp only
        split
        · rw [ih]
        · rw [ih, propagateOutputs_time]

lemma advanceTime_ge (s : Engine) : s.currentTime + 1 ≤ (advanceTime s).currentTime := by
  unfold advanceTime
  split
  · exact le_max_left _ _
  · exact le_refl _

/-- One `processTimeStep` advances `currentTime` by at least one tick. -/
lemma processTimeStep_time (s : Engine) :
    s.currentTime + 1 ≤ (processTimeStep s).currentTime := by
  unfold processTimeStep
  have h : (eventLoop s.maxEventsPerStep (pulsesPhase (clocksPhase s))).currentTime =
      s.currentTime := by
    rw [eventLoop_time, pulsesPhase_time, clocksPhase_time]
  have h2 := advanceTime_ge (eventLoop s.maxEventsPerStep (pulsesPhase (clocksPhase s)))
  omega

lemma stepRun_time : ∀ (n : Nat) (s : Engine), 1 ≤ n →
    s.currentTime + 1 ≤ (stepRun n s).currentTime ∧
    ((stepRun n s).eventQueue.isEmpty = false →
      s.currentTime + n ≤ (stepRun n s).currentTime) := by
  intro n
  induction n with
  | zero => intro s h; omega
  | succ k ih =>
    intro s _
    rw [stepRun]
    by_cases he : (processTimeStep s).eventQueue.isEmpty = true
    · simp only [he, if_pos]
      refine ⟨processTimeStep_time s, ?_⟩
      intro hfalse
      cases hfalse
    · have he' : ¬((processTimeStep s).eventQueue.isEmpty = true) := he
      simp only [if_neg he']
      rcases Nat.eq_zero_or_pos k with hk | hk
      · subst hk
        have h1 := processTimeStep_time s
        exact ⟨h1, fun _ => h1⟩
      · have hrec := ih (processTimeStep s) hk
        have h1 := processTimeStep_time s
        exact ⟨by omega, fun hf => by have := hrec.2 hf; omega⟩

/-- C7 (amended): every executed `processOneStep` advances `currentTime` by at
least one, and `step(n)` (for `n ≥ 1`) executes between 1 and `n` of them,
stopping early once the event queue is empty; hence `currentTime` grows by at
least 1, and by at least `n` whenever the queue is still non-empty after the
call (no early stop occurred). -/
theorem step_time_advance (s : Engine) (n : Nat) (hn : 1 ≤ n) :
    s.currentTime + 1 ≤ (s.step n).currentTime ∧
    ((s.step n).eventQueue.isEmpty = false →
      s.currentTime + n ≤ (s.step n).currentTime) :=
  stepRun_time n s hn

/-- Counterexample for C7 as stated: on an engine with an empty netlist,
`step(2)` stops after one `processOneStep` (the queue is empty), so
`currentTime` grows by 1, not by at least 2. -/
theorem step_count_counterexample :
    ¬(Engine.new.currentTime + 2 ≤ (Engine.new.step 2).currentTime) := by
  decide

/-- Witness for C7: the amended bound applied to the empty engine with
`n = 1`. -/
theorem step_time_advance_witness :
    Engine.new.currentTime + 1 ≤ (Engine.new.step 1).currentTime :=
  (step_time_advance Engine.new 1 (by decide)).1

lemma alGet_alSet_self {α : Type} (r : List (String × α)) (k : String) (v : α) :
    alGet (alSet r k v) k = some v := by
  induction r with
  | nil => simp [alSet, alGet]
  | cons p rest ih =>
    obtain ⟨pk, pv⟩ := p
    by_cases h : pk = k
    · simp [alSet, alGet, h]
    · simp [alSet, alGet, h, ih]

/-- The stored Q of a flip-flop: the `internalState['q']` read performed by
`DFlipFlop.evaluate` (the key is always present, set by the constructor and by
`onReset`). -/
def storedQ (g : Gate) : StateType :=
  getStateD g.internalState "q" StateType.UNKNOWN

/-- The D input read performed by `DFlipFlop.evaluate`
(`this.inputs[0]?.state ?? UNKNOWN`). -/
def dInput (g : Gate) : StateType :=
  ((g.inputs[0]?).map (fun p => p.state)).getD StateType.UNKNOWN

/-- The capture rule of the claim: `Q ← D` for valid D, `UNKNOWN` for
`UNKNOWN`/`HI_Z`, `CONFLICT` for `CONFLICT`. -/
def dffCaptureRule (d : StateType) : StateType :=
  if d = StateType.ZERO ∨ d = StateType.ONE then d
  else if d = StateType.UNKNOWN ∨ d = StateType.HI_Z then StateType.UNKNOWN
  else StateType.CONFLICT

lemma invertState_eq_logicalNot (s : StateType) (h : s ≠ StateType.HI_Z) :
    invertState s = logicalNot s := by
  cases s <;> simp_all [invertState, logicalNot]

lemma dffCaptureRule_ne_hiz (d : StateType) : dffCaptureRule d ≠ StateType.HI_Z := by
  cases d <;> simp [dffCaptureRule]

lemma getStateD_alSet_state (r : List (String × JsValue)) (k : String) (v d : StateType) :
    getStateD (alSet r k (JsValue.vstate v)) k d = v := by
  simp [getStateD, alGet_alSet_self]

lemma dffEvaluate_q (g : Gate) :
    storedQ (dffEvaluate g).1 =
      (if g.isRisingEdge 1 then dffCaptureRule (dInput g) else storedQ g) ∧
    (dffEvaluate g).2 =
      [storedQ (dffEvaluate g).1, invertState (storedQ (dffEvaluate g).1)] := by
  refine ⟨?_, rfl⟩
  by_cases hr : g.isRisingEdge 1 = true
  · simp only [dffEvaluate, hr, if_true, storedQ, Gate.setOutput, dffCaptureRule, dInput]
    split_ifs with h1 h2 <;> rw [getStateD_alSet_state]
  · have hr' : g.isRisingEdge 1 = false := by simpa using hr
    simp only [dffEvaluate, hr', Bool.false_eq_true, if_false]
    rfl

/-- C5: a `D_FLIPFLOP`'s stored Q starts at `ZERO`; an evaluation changes Q
only on a rising CLK edge (previous CLK `ZERO`, current CLK `ONE`; no other
transition counts); on a rising edge Q becomes D for valid D, `UNKNOWN` for
`UNKNOWN`/`HI_Z`, `CONFLICT` for `CONFLICT`; and the outputs are always
`(Q, not Q)` — `invertState` agreeing with the 5-state `logicalNot` on every
reachable Q (Q never becomes `HI_Z`). -/
theorem dff_evaluate_spec (g : Gate) (hk : g.kind = GateKind.dff) :
    (∀ id, storedQ (dFlipFlopNew id) = StateType.ZERO) ∧
    (g.isRisingEdge 1 = true ↔
      (g.previousInputs[1]? = some StateType.ZERO ∧
        (g.inputs[1]?).map (fun p => p.state) = some StateType.ONE)) ∧
    (g.isRisingEdge 1 = false → storedQ (g.evaluate).1 = storedQ g) ∧
    (g.isRisingEdge 1 = true → storedQ (g.evaluate).1 = dffCaptureRule (dInput g)) ∧
    ((g.evaluate).2 = [storedQ (g.evaluate).1, invertState (storedQ (g.evaluate).1)]) ∧
    (storedQ g ≠ StateType.HI_Z →
      storedQ (g.evaluate).1 ≠ StateType.HI_Z ∧
      invertState (storedQ (g.evaluate).1) = logicalNot (storedQ (g.evaluate).1)) := by
  have hev : g.evaluate = dffEvaluate g := by
    unfold Gate.evaluate
    rw [hk]
  have hq := dffEvaluate_q g
  refine ⟨?_, ?_, ?_, ?_, ?_, ?_⟩
  · intro id
    simp [storedQ, dFlipFlopNew, gateNew, getStateD, alGet]
  · unfold Gate.isRisingEdge
    simp [Bool.and_eq_true, decide_eq_true_eq]
  · intro hr
    rw [hev, hq.1, hr]
    simp
  · intro hr
    rw [hev, hq.1, hr]
    simp
  · rw [hev]
    exact hq.2
  · intro hqz
    have hne : storedQ (g.evaluate).1 ≠ StateType.HI_Z := by
      rw [hev, hq.1]
      by_cases hr : g.isRisingEdge 1 = true
      · simp only [hr, if_true]
        exact dffCaptureRule_ne_hiz _
      · have hr' : g.isRisingEdge 1 = false := by simpa using hr
        simp only [hr', Bool.false_eq_true, if_false]
        exact hqz
    exact ⟨hne, invertState_eq_logicalNot _ hne⟩

/-- A concrete D flip-flop mid-simulation: previous CLK `ZERO`, current CLK
`ONE` (a rising edge), D = `ONE`. -/
def c5gate : Gate :=
  ((((dFlipFlopNew "ff").setInput 1 StateType.ZERO).updatePreviousInputs).setInput 1
    StateType.ONE).setInput 0 StateType.ONE

/-- Witness for C5: on the rising edge the flip-flop captures D. -/
theorem dff_evaluate_spec_witness :
    storedQ (c5gate.evaluate).1 = dffCaptureRule (dInput c5gate) :=
  (dff_evaluate_spec c5gate (by decide)).2.2.2.1 (by decide)

lemma alDelete_of_alGet_none {α : Type} (m : List (String × α)) (k : String)
    (h : alGet m k = none) : alDelete m k = m := by
  induction m with
  | nil => rfl
  | cons p rest ih =>
    obtain ⟨pk, pv⟩ := p
    by_cases hpk : pk = k
    · simp [alGet, hpk] at h
    · simp only [alGet, if_neg hpk] at h
      have hrest := ih h
      simp only [alDelete] at hrest ⊢
      rw [List.filter_cons, if_pos (by simp [hpk]), hrest]

lemma alGet_alDelete_self {α : Type} (m : List (String × α)) (k : String) :
    alGet (alDelete m k) k = none := by
  induction m with
  | nil => rfl
  | cons p rest ih =>
    obtain ⟨pk, pv⟩ := p
    by_cases hpk : pk = k
    · simp only [alDelete] at ih ⊢
      rw [List.filter_cons, if_neg (by simp [hpk])]
      exact ih
    · simp only [alDelete] at ih ⊢
      rw [List.filter_cons, if_pos (by simp [hpk])]
      simpa [alGet, hpk] using ih

lemma mem_alDelete {α : Type} (m : List (String × α)) (k : String) (p : String × α)
    (h : p ∈ alDelete m k) : p ∈ m ∧ p.1 ≠ k := by
  have := List.mem_filter.mp h
  refine ⟨this.1, ?_⟩
  have h2 := this.2
  simpa using h2

lemma unregister_wires (s : Engine) (g : Gate) (gid : String) :
    (unregisterClockPulse s g gid).wires = s.wires := by
  unfold unregisterClockPulse
  cases g.kind <;> rfl

lemma removeWire_wires (s : Engine) (wid : String) :
    (removeWire s wid).wires = alDelete s.wires wid := by
  unfold removeWire
  cases halG : alGet s.wires wid with
  | none => exact (alDelete_of_alGet_none s.wires wid halG).symm
  | some wire =>
    simp only [halG]
    split
    · split
      · rfl
      · rfl
    · split
      · rfl
      · rfl

lemma foldl_removeWire_wires (l : List String) :
    ∀ s : Engine, (l.foldl removeWire s).wires = l.foldl alDelete s.wires := by
  induction l with
  | nil => intro s; rfl
  | cons wid rest ih =>
    intro s
    rw [List.foldl_cons, List.foldl_cons, ih, removeWire_wires]

lemma mem_foldl_alDelete {α : Type} :
    ∀ (l : List String) (m : List (String × α)) (p : String × α),
      p ∈ l.foldl alDelete m → p ∈ m ∧ p.1 ∉ l := by
  intro l
  induction l with
  | nil => intro m p h; exact ⟨h, List.not_mem_nil p.1⟩
  | cons k rest ih =>
    intro m p h
    rw [List.foldl_cons] at h
    obtain ⟨h1, h2⟩ := ih (alDelete m k) p h
    obtain ⟨h3, h4⟩ := mem_alDelete m k p h1
    refine ⟨h3, ?_⟩
    intro hmem
    rcases List.mem_cons.mp hmem with hmem | hmem
    · exact h4 hmem
    · exact h2 hmem

lemma removeGate_eq (s : Engine) (gateId : String) (gate : Gate)
    (hg : alGet s.gates gateId = some gate) :
    removeGate s gateId =
      (let s1 := unregisterClockPulse s gate gateId
       let wtr := (s1.wires.filter (fun p =>
         decide (p.2.sourceGateId = gateId) || decide (p.2.targetGateId = gateId))).map
           (fun p => p.1)
       let s2 := wtr.foldl removeWire s1
       { s2 with eventQueue := s2.eventQueue.removeEventsForGate gateId,
                 gates := alDelete s2.gates gateId }) := by
  unfold removeGate
  simp only [hg]

/-- C6: after `removeGate(id)` on an existing gate, no wire in the wire map
has that gate as source or target, no pending event in the queue addresses it
(including the re-evaluations the wire removals scheduled, purged afterwards),
and the gate is gone from the gate map. -/
theorem removeGate_cleanup (s : Engine) (gateId : String)
    (hex : (alGet s.gates gateId).isSome = true) :
    (∀ p ∈ (removeGate s gateId).wires,
      p.2.sourceGateId ≠ gateId ∧ p.2.targetGateId ≠ gateId) ∧
    (∀ e ∈ (removeGate s gateId).eventQueue.heap, e.gateId ≠ gateId) ∧
    alGet (removeGate s gateId).gates gateId = none := by
  obtain ⟨gate, hg⟩ : ∃ g, alGet s.gates gateId = some g := by
    cases h : alGet s.gates gateId with
    | none => rw [h] at hex; simp at hex
    | some g => exact ⟨g, rfl⟩
  rw [removeGate_eq s gateId gate hg]
  dsimp only
  refine ⟨?_, ?_, ?_⟩
  · intro p hp
    rw [foldl_removeWire_wires] at hp
    obtain ⟨hmem, hnot⟩ := mem_foldl_alDelete _ _ _ hp
    constructor
    · intro hcon
      exact hnot (List.mem_map_of_mem _ (List.mem_filter.mpr ⟨hmem, by simp [hcon]⟩))
    · intro hcon
      exact hnot (List.mem_map_of_mem _ (List.mem_filter.mpr ⟨hmem, by simp [hcon]⟩))
  · intro e he
    have hperm := rebuildHeap_perm
      ((((List.filter (fun p => decide (p.2.sourceGateId = gateId) ||
        decide (p.2.targetGateId = gateId)) (unregisterClockPulse s gate gateId).wires).map
          (fun p => p.1)).foldl removeWire
            (unregisterClockPulse s gate gateId)).eventQueue.heap.filter
              (fun e => e.gateId != gateId))
    have hmem := hperm.mem_iff.mp he
    have := (List.mem_filter.mp hmem).2
    simpa using this
  · exact alGet_alDelete_self _ _

/-- A self-looping wire on the gate of `c6engine`. -/
def c6wire : Wire :=
  { sourceGateId := "g", sourcePortIndex := 0, targetGateId := "g", targetPortIndex := 0, state := StateType.UNKNOWN }

/-- A pending event for the gate of `c6engine`. -/
def c6event : SimEvent :=
  { time := 0, creationTime := 0, gateId := "g", portIndex := -1, newState := StateType.UNKNOWN }

/-- A concrete engine with one LED gate, a self-looping wire on it, and one
pending event for it. -/
def c6engine : Engine :=
  { Engine.new with gates := [("g", ledGateNew "g")], wires := [("w", c6wire)], eventQueue := { heap := [c6event], creationCounter := 1 } }

/-- Witness for C6: removing the gate removes it from the gate map. -/
theorem removeGate_cleanup_witness :
    alGet (removeGate c6engine "g").gates "g" = none :=
  (removeGate_cleanup c6engine "g" (by decide)).2.2

/-- Descriptor of a `ROM_16X4` whose memory holds the word `1010` (LSB first
`ONE, ZERO, ONE, ZERO`) at address 0. -/
def c2romDesc : GateState :=
  { id := "rom1", type := "ROM_16X4",
    inputStates := List.replicate 5 StateType.UNKNOWN,
    outputStates := List.replicate 4 StateType.UNKNOWN,
    internalState := some [("memory", JsValue.vmem [("0", [StateType.ONE, StateType.ZERO, StateType.ONE, StateType.ZERO])])] }

/-- C2 (code bug): on the engine initialized with a non-empty-memory ROM, the
ROM's memory map is present before `reset()` but empty afterwards —
`Gate.reset` assigns `internalState = {}` before calling `RomGate.onReset`,
so the `memory` the override tries to preserve is already gone.  This
contradicts the claim, the spec, and the source's own comment
("ROM preserves its content on reset"). -/
theorem rom_reset_clears_memory :
    (initEngine Engine.new [c2romDesc] []).map (fun e =>
      ((alGet e.gates "rom1").map (fun g => alGet g.internalState "memory"),
       (alGet e.reset.gates "rom1").map (fun g => alGet g.internalState "memory"))) =
    some (some (some (JsValue.vmem [("0", [StateType.ONE, StateType.ZERO, StateType.ONE, StateType.ZERO])])),
          some (some (JsValue.vmem []))) := by
  decide

/-- Descriptor of a KEYPAD component for the worker scenario. -/
def c8desc : GateState :=
  { id := "k1", type := "KEYPAD", inputStates := [],
    outputStates := List.replicate 4 StateType.UNKNOWN, internalState := none }

/-- The worker after an `init` message carrying one KEYPAD gate. -/
def c8worker : WorkerState :=
  (handleMessage workerInit (WorkerMsg.init [c8desc] [])).1

/-- C8 (code bug): with an initialized engine holding a KEYPAD gate,
`setKeypadValue` and `setMemoryData` messages hit the dispatcher's `default`
branch — the worker replies with an `error` response and leaves all state
(including the KEYPAD's internal value) unchanged, contradicting the claim
that they take effect without an error. -/
theorem worker_keypad_memory_messages_error :
    handleMessage c8worker (WorkerMsg.setKeypadValue "k1" 5) =
      (c8worker, [WorkerResponse.errorResp "Unknown message type"]) ∧
    handleMessage c8worker (WorkerMsg.setMemoryData "k1" [("0", [5])]) =
      (c8worker, [WorkerResponse.errorResp "Unknown message type"]) ∧
    (c8worker.engine.map (fun e => (alGet e.gates "k1").map (fun g => g.type))) =
      some (some "KEYPAD") := by
  refine ⟨rfl, rfl, ?_⟩
  decide

/-- Descriptor of a TOGGLE whose stored value is `ONE`. -/
def c1toggleDesc : GateState :=
  { id := "t1", type := "TOGGLE", inputStates := [],
    outputStates := [StateType.UNKNOWN],
    internalState := some [("value", JsValue.vstate StateType.ONE)] }

/-- Descriptor of an LED. -/
def c1ledDesc : GateState :=
  { id := "l1", type := "LED", inputStates := [StateType.UNKNOWN],
    outputStates := [], internalState := none }

/-- Descriptor of the wire from the toggle's output to the LED's input. -/
def c1wireDesc : WireState :=
  { id := "w1", state := StateType.UNKNOWN, sourceGateId := "t1",
    sourcePortIndex := 0, targetGateId := "l1", targetPortIndex := 0 }

/-- The C1 scenario: initialize `TOGGLE(ONE) → LED`, step twice so the `ONE`
reaches the LED's input, remove the only wire driving that input, then step
twice more so the re-evaluation scheduled by `removeWire` is processed. -/
def c1final : Option Engine :=
  (initEngine Engine.new [c1toggleDesc, c1ledDesc] [c1wireDesc]).map
    (fun e => ((removeWire ((e.step 1).step 1) "w1").step 1).step 1)

/-- C1 (code bug): after `removeWire` and the processing of the re-evaluation
it schedules, the LED's input port 0 still reads `ONE` although its connection
list is empty (the queue is empty, so the scheduled re-evaluation has run).
The claimed invariant requires `UNKNOWN` for an empty connection list:
evaluation never re-resolves inputs, so the port keeps the stale value of the
removed driver. -/
theorem removeWire_stale_input :
    c1final.map (fun e =>
      ((alGet e.gates "l1").map (fun g => g.inputs.map (fun p => (p.state, p.connectedWires))),
       e.eventQueue.heap.isEmpty)) =
    some (some [(StateType.ONE, [])], true) := by
  decide

end MetaLogic
